import Mathlib

/-!
# autobank: statement retrieval adapters

A shallow embedding of the two bank adapters (`bank/db/db.go`, `bank/n26/n26.go`) and of
the upload loop of `main.go`, followed by the properties of the specification checked
against them.

Conventions of the embedding:

* HTTP is an explicit environment `Env`: `roundTrip` answers a request given the requests
  already sent (cookies and server-side session state are functions of that history).
  Every call of `client.Do` appends the request to a log that is threaded through the code.
* Library parsers whose input is a response (`goquery.NewDocumentFromResponse`,
  `json.Decoder.Decode`, `url.Parse` inside `http.NewRequest`) are fields of `Env`.
* `encoding/csv` is modelled concretely (section "encoding/csv").
* Go `(value, error)` results are `Except Error value`; mutated receivers are returned.
-/

namespace Autobank

/-! ## Basic types -/

/-- The sentinel errors of `encoding/csv` that the reader can produce. -/
inductive CsvErr where
  | ErrBareQuote
  | ErrQuote
  | ErrFieldCount
  | errInvalidDelim
deriving DecidableEq

/-- Go `error`: an error made from a message (`fmt.Errorf` in the adapters, or an error
of `net/http`, `goquery`, `encoding/json`), or an error of `encoding/csv`, identified by
its sentinel. -/
inductive Error where
  | text (msg : String)
  | csv (err : CsvErr)
deriving DecidableEq

instance instDecidableEqExcept {ε α : Type} [DecidableEq ε] [DecidableEq α] :
    DecidableEq (Except ε α)
  | .ok a, .ok b => if h : a = b then isTrue (by rw [h]) else isFalse (by simpa using h)
  | .error a, .error b => if h : a = b then isTrue (by rw [h]) else isFalse (by simpa using h)
  | .ok _, .error _ => isFalse (by simp)
  | .error _, .ok _ => isFalse (by simp)

/-- Go `[][]string`. -/
abbrev Table := List (List String)

/-- What the adapters observe of a Go `time.Time`: the Unix time (seconds and the
nanosecond remainder, as stored by the runtime) and the calendar fields returned by
`Year()`, `Month()` and `Day()` in the location of the value. -/
structure Time where
  unixSec : Int
  nsec : Nat
  year : Int
  month : Nat
  day : Nat
deriving DecidableEq

/-- Ranges guaranteed by the `time` package: `0 <= nsec < 1e9`, `January <= Month() <= December`,
`1 <= Day() <= 31`. -/
def Time.Valid (t : Time) : Prop :=
  t.nsec < 1000000000 ∧ 1 ≤ t.month ∧ t.month ≤ 12 ∧ 1 ≤ t.day ∧ t.day ≤ 31

instance (t : Time) : Decidable t.Valid := by
  unfold Time.Valid; infer_instance

/-- Two's complement wrap-around of an integer into `int64`. -/
def wrapInt64 (x : Int) : Int :=
  (x + 9223372036854775808) % 18446744073709551616 - 9223372036854775808

/-- Go `Time.UnixNano`: `sec*1e9 + nsec` computed in `int64`. -/
def Time.UnixNano (t : Time) : Int :=
  wrapInt64 (t.unixSec * 1000000000 + (t.nsec : Int))

/-- The nanosecond timestamp is representable in a signed 64-bit integer. -/
def Time.FitsInt64 (t : Time) : Prop :=
  -9223372036854775808 ≤ t.unixSec * 1000000000 + (t.nsec : Int) ∧
    t.unixSec * 1000000000 + (t.nsec : Int) < 9223372036854775808

instance (t : Time) : Decidable t.FitsInt64 := by
  unfold Time.FitsInt64; infer_instance

/-- Go `Time.UnixMilli` (the reference the specification compares with):
`unixSec*1e3 + nsec/1e6`, the whole number of milliseconds since the epoch. -/
def Time.UnixMilli (t : Time) : Int :=
  t.unixSec * 1000 + ((t.nsec / 1000000 : Nat) : Int)

/-! ## fmt.Sprintf verbs used by the adapters -/

/-- The verb `%d` on an integer: sign and decimal digits. -/
def sprintfD (n : Int) : String :=
  if n < 0 then "-" ++ Nat.repr n.natAbs else Nat.repr n.natAbs

/-- Left padding of a digit string with `'0'` up to `w` characters. -/
def zeroPad (w : Nat) (s : String) : String :=
  String.mk (List.replicate (w - s.length) '0') ++ s

/-- The verb `%02d` on an integer. With the zero flag the width becomes the precision of
the digits, one less when a sign is written (`fmt.fmtInteger`). -/
def sprintf02d (n : Int) : String :=
  if n < 0 then "-" ++ zeroPad 1 (Nat.repr n.natAbs) else zeroPad 2 (Nat.repr n.natAbs)

/-! ## net/url.Values -/

/-- Go `url.Values` (`map[string][]string`), as an association list. -/
abbrev Values := List (String × List String)

/-- Go `Values.Set`: replaces the values of `key` by the single `value`. -/
def Values.Set (v : Values) (key value : String) : Values :=
  v.filter (fun kv => kv.1 != key) ++ [(key, [value])]

/-- Go `Values.Add`: appends `value` to the values of `key`. -/
def Values.Add : Values → String → String → Values
  | [], key, value => [(key, [value])]
  | (k, vs) :: rest, key, value =>
    if k = key then (k, vs ++ [value]) :: rest else (k, vs) :: Values.Add rest key value

/-- The values stored under `key` (`v[key]`), `[]` when the key is absent. -/
def Values.lookup (v : Values) (key : String) : List String :=
  match v.find? (fun kv => kv.1 = key) with
  | some kv => kv.2
  | none => []

/-! ## HTTP -/

/-- An `http.Request` as the adapters build it. `form` is the `url.Values` whose
`Encode()` is the body (empty for the body-less requests). -/
structure Request where
  method : String
  url : String
  header : List (String × String)
  form : Values
deriving DecidableEq

/-- An `http.Response`: status code and the complete body. -/
structure Response where
  statusCode : Nat
  body : String
deriving DecidableEq

/-! ## HTML documents and the two goquery selections -/

/-- A node of a parsed HTML tree (`html.Node`): an element with its attributes (in source
order) and children, or any other node (text, comment), which no selector matches. -/
inductive Node where
  | element (tag : String) (attr : List (String × String)) (children : List Node)
  | text (data : String)

/-- A parsed page: the children of the document node. -/
abbrev Document := List Node

/-- goquery `Selection.Attr` on a single node: the value of the first attribute named
`name` and `true`, or `("", false)`. -/
def Node.Attr : Node → String → String × Bool
  | .element _ attr _, name =>
    match attr.find? (fun a => a.1 = name) with
    | some a => (a.2, true)
    | none => ("", false)
  | .text _, _ => ("", false)

/-- The characters that separate the words of a `class` attribute (cascadia). -/
def isClassSpace (c : Char) : Bool :=
  c = ' ' || c = '\t' || c = '\r' || c = '\n' || c = '\x0c'

/-- The non-empty words of an attribute value; `cur` is the word being read. -/
def classWords : List Char → List Char → List (List Char)
  | cur, [] => if cur = [] then [] else [cur]
  | cur, c :: cs =>
    if isClassSpace c then
      (if cur = [] then classWords [] cs else cur :: classWords [] cs)
    else classWords (cur ++ [c]) cs

/-- The selector `.cls` on the attributes of an element: some `class` attribute has `cls`
among its words. -/
def hasClass (attr : List (String × String)) (cls : String) : Bool :=
  attr.any (fun a => a.1 = "class" && (classWords [] a.2.data).contains cls.data)

/-- The selector `#id` on the attributes of an element. -/
def hasId (attr : List (String × String)) (id : String) : Bool :=
  attr.any (fun a => a.1 = "id" && a.2 = id)

mutual
/-- The elements matching `#id` in a subtree, in document order. -/
def matchAllId (id : String) : Node → List Node
  | .element tag attr cs =>
    (if hasId attr id then [Node.element tag attr cs] else []) ++ matchAllIdList id cs
  | .text _ => []
/-- The elements matching `#id` in a list of subtrees. -/
def matchAllIdList (id : String) : List Node → List Node
  | [] => []
  | n :: ns => matchAllId id n ++ matchAllIdList id ns
end

mutual
/-- The elements matching `.cls tag` (an element `tag` with a proper ancestor of class
`cls`) in a subtree, in document order; `under` tells whether an ancestor of the subtree
has the class. -/
def matchAllUnder (cls tag : String) (under : Bool) : Node → List Node
  | .element t attr cs =>
    (if t = tag && under then [Node.element t attr cs] else []) ++
      matchAllUnderList cls tag (under || hasClass attr cls) cs
  | .text _ => []
/-- The elements matching `.cls tag` in a list of subtrees. -/
def matchAllUnderList (cls tag : String) (under : Bool) : List Node → List Node
  | [] => []
  | n :: ns => matchAllUnder cls tag under n ++ matchAllUnderList cls tag under ns
end

/-- The selection `doc.Find("#accountTurnoversForm")`. -/
def findRefreshForm (doc : Document) : List Node :=
  matchAllIdList "accountTurnoversForm" doc

/-- The selection `doc.Find(".csv a")`. -/
def findCsvLink (doc : Document) : List Node :=
  matchAllUnderList "csv" "a" false doc

/-! ## The environment -/

/-- The struct decoded from the token endpoint's JSON (n26.go, lines 58-64). -/
structure TokenOut where
  AccessToken : String
  TokenType : String
  RefreshToken : String
  ExpiresIn : Int
  Scope : String
deriving DecidableEq

/-- Everything outside the adapters.
* `roundTrip log req`: the result of `client.Do(req)` after the requests `log`.
* `parseDocument`: `goquery.NewDocumentFromResponse`.
* `decodeToken`: `json.NewDecoder(resp.Body).Decode(&out)` and the resulting `out`.
* `urlError`: the error of `http.NewRequest` for a URL that `url.Parse` rejects. -/
structure Env where
  roundTrip : List Request → Request → Except Error Response
  parseDocument : Response → Except Error Document
  decodeToken : Response → Except Error TokenOut
  urlError : String → Option Error

/-! ## encoding/csv

`csv.Reader.ReadAll` as both adapters use it: `Comma` and `FieldsPerRecord` set, `Comment`,
`LazyQuotes` and `TrimLeadingSpace` at their zero values, the response body read to its
end without a read error. The body is a list of characters; the reader only searches for
the ASCII bytes `"`, `\n`, `\r` and for `Comma`, so bytes and characters agree on text.

The Go reader works line by line (`readLine`) and, inside a line, field by field
(`readRecord`, label `parseField`). What `readLine` returns does not depend on the state
of the parse, so its two rewrites are applied to the whole input first (`normalizeLines`),
after which every `\n` is the end of a line. `readRecords` then follows `readRecord`
character by character:

* at the start of a record a line that is only the line end is skipped
  (`len(line) == lengthNL(line)`), and the end of the input is `io.EOF`: `ReadAll` returns;
* a field that begins with `"` is a quoted field, any other is a non-quoted field that runs
  to the next `Comma` or to the end of the line; a `"` inside it is `ErrBareQuote`;
* inside a quoted field a line end is part of the field and the next line is read; the end
  of the input is `ErrQuote`; after a `"` comes another `"` (one quote of the field), a
  `Comma` (end of the field), the end of the line or of the input (end of the record), and
  anything else is `ErrQuote`;
* at the end of a record the field count is checked (`checkFieldsPerRecord`) and on an
  error `ReadAll` returns no record.
-/

/-- Go `csv.validDelim`; every Lean `Char` is a valid rune. -/
def validDelim (r : Char) : Bool :=
  r != Char.ofNat 0 && r != '"' && r != '\r' && r != '\n' && r != Char.ofNat 0xFFFD

/-- The two rewrites of `Reader.readLine`, on the whole input: the `'\r'` of a line that
ends in `"\r\n"` is removed (a `'\r'` directly before `'\n'`), and so is a `'\r'` at the end
of a last line that has no `'\n'` (a `'\r'` that ends the input). -/
def normalizeLines : List Char → List Char
  | [] => []
  | c :: rest =>
    if c = '\r' ∧ (rest = [] ∨ rest.head? = some '\n') then normalizeLines rest
    else c :: normalizeLines rest

/-- Where `Reader.readRecord` stands in the input.
* `recordStart`: before a record; lines that are empty are skipped.
* `fieldStart`: after a delimiter.
* `unquoted buf`: inside a non-quoted field.
* `quoted buf`: inside a quoted field (may run over line ends).
* `quoteSeen buf`: just after a `"` inside a quoted field. -/
inductive Scan where
  | recordStart
  | fieldStart
  | unquoted (buf : List Char)
  | quoted (buf : List Char)
  | quoteSeen (buf : List Char)

/-- The check at the end of `readRecord`: with `FieldsPerRecord > 0` the record must have
that many fields; with `0` the first record sets it; negative, no check. Returns the
new `FieldsPerRecord`. -/
def checkFieldsPerRecord (fieldsPerRecord : Int) (record : List String) : Except CsvErr Int :=
  if fieldsPerRecord > 0 then
    (if (record.length : Int) ≠ fieldsPerRecord then .error .ErrFieldCount
     else .ok fieldsPerRecord)
  else if fieldsPerRecord = 0 then .ok (record.length : Int)
  else .ok fieldsPerRecord

/-- The loop of `Reader.ReadAll` over the normalised input (`LazyQuotes`,
`TrimLeadingSpace` off, no `Comment`): `record` holds the fields of the record being
read, `records` the records read. -/
def readRecords (comma : Char) :
    List Char → Scan → Int → List String → Table → Except CsvErr Table
  | [], .recordStart, _, _, records => .ok records
  | [], .fieldStart, fpr, record, records =>
    match checkFieldsPerRecord fpr (record ++ [""]) with
    | .error e => .error e
    | .ok _ => .ok (records ++ [record ++ [""]])
  | [], .unquoted buf, fpr, record, records =>
    match checkFieldsPerRecord fpr (record ++ [String.mk buf]) with
    | .error e => .error e
    | .ok _ => .ok (records ++ [record ++ [String.mk buf]])
  | [], .quoted _, _, _, _ => .error .ErrQuote
  | [], .quoteSeen buf, fpr, record, records =>
    match checkFieldsPerRecord fpr (record ++ [String.mk buf]) with
    | .error e => .error e
    | .ok _ => .ok (records ++ [record ++ [String.mk buf]])
  | c :: cs, .recordStart, fpr, record, records =>
    if c = '\n' then readRecords comma cs .recordStart fpr record records
    else if c = '"' then readRecords comma cs (.quoted []) fpr record records
    else if c = comma then readRecords comma cs .fieldStart fpr (record ++ [""]) records
    else readRecords comma cs (.unquoted [c]) fpr record records
  | c :: cs, .fieldStart, fpr, record, records =>
    if c = '"' then readRecords comma cs (.quoted []) fpr record records
    else if c = comma then readRecords comma cs .fieldStart fpr (record ++ [""]) records
    else if c = '\n' then
      match checkFieldsPerRecord fpr (record ++ [""]) with
      | .error e => .error e
      | .ok fpr => readRecords comma cs .recordStart fpr [] (records ++ [record ++ [""]])
    else readRecords comma cs (.unquoted [c]) fpr record records
  | c :: cs, .unquoted buf, fpr, record, records =>
    if c = '"' then .error .ErrBareQuote
    else if c = comma then
      readRecords comma cs .fieldStart fpr (record ++ [String.mk buf]) records
    else if c = '\n' then
      match checkFieldsPerRecord fpr (record ++ [String.mk buf]) with
      | .error e => .error e
      | .ok fpr =>
        readRecords comma cs .recordStart fpr [] (records ++ [record ++ [String.mk buf]])
    else readRecords comma cs (.unquoted (buf ++ [c])) fpr record records
  | c :: cs, .quoted buf, fpr, record, records =>
    if c = '"' then readRecords comma cs (.quoteSeen buf) fpr record records
    else readRecords comma cs (.quoted (buf ++ [c])) fpr record records
  | c :: cs, .quoteSeen buf, fpr, record, records =>
    if c = '"' then readRecords comma cs (.quoted (buf ++ ['"'])) fpr record records
    else if c = comma then
      readRecords comma cs .fieldStart fpr (record ++ [String.mk buf]) records
    else if c = '\n' then
      match checkFieldsPerRecord fpr (record ++ [String.mk buf]) with
      | .error e => .error e
      | .ok fpr =>
        readRecords comma cs .recordStart fpr [] (records ++ [record ++ [String.mk buf]])
    else .error .ErrQuote

/-- A `csv.Reader` with the two settings the adapters touch. -/
structure Reader where
  Comma : Char
  FieldsPerRecord : Int

/-- Go `csv.NewReader`: comma-delimited, `FieldsPerRecord = 0`. -/
def NewReader : Reader := { Comma := ',', FieldsPerRecord := 0 }

/-- Go `Reader.ReadAll` on a body read without transport error: all records, or the
first error and no record. -/
def Reader.ReadAll (r : Reader) (body : String) : Except CsvErr Table :=
  if validDelim r.Comma then
    readRecords r.Comma (normalizeLines body.data) .recordStart r.FieldsPerRecord [] []
  else .error .errInvalidDelim

/-- The `(records, err)` of `ReadAll` as the adapters return it. -/
def csvResult : Except CsvErr Table → Except Error Table
  | .ok records => .ok records
  | .error e => .error (.csv e)

/-! ## Session-based adapter: the date-range form (db.go, lines 115-125) -/

/-- The form posted by `DeutscheBank.Statements` to filter the turnovers. -/
def dateRangeForm (tFrom tTo : Time) : Values :=
  let v : Values := []
  let v := v.Set "subaccountAndCurrency" "00"
  let v := v.Add "period" "dynamicRange"
  let v := v.Add "periodStartMonth" (sprintf02d tFrom.month)
  let v := v.Add "periodStartDay" (sprintf02d tFrom.day)
  let v := v.Add "periodStartYear" (sprintfD tFrom.year)
  let v := v.Add "periodEndMonth" (sprintf02d tTo.month)
  let v := v.Add "periodEndDay" (sprintf02d tTo.day)
  let v := v.Add "periodEndYear" (sprintf02d tTo.year)
  let v := v.Add "periodDays" "180"
  v.Add "searchString" ""

/-! ## Session-based adapter (bank/db/db.go) -/

def baseURL : String := "https://meine.deutsche-bank.de"

def loginPagePath : String := "/trxm/db/"

def loginPath : String := "/trxm/db/gvo/login/login.do"

def pageDisplayTransactions : String := "DisplayTransactions"

/-- The credentials held by a `DeutscheBank` client. The cookie jar and the HTTP client,
rebuilt by every `login`, are the request history of the environment. -/
structure DeutscheBank where
  branch : String
  account : String
  pin : String
deriving DecidableEq

/-- The `GET` of the login page (db.go, lines 54-59). -/
def loginPageRequest : Request :=
  { method := "GET", url := baseURL ++ loginPagePath,
    header := [("Accept-Language", "en-US,en;q=0.8,da;q=0.6")], form := [] }

/-- The credentials form (db.go, lines 64-78). -/
def loginForm (d : DeutscheBank) (page : String) : Values :=
  let v : Values := []
  let v := v.Set "gvo" "DisplayFinancialOverview"
  let v := v.Add "loginTab" "pin"
  let v := v.Add "process" ""
  let v := v.Add "wknOrIsin" ""
  let v := v.Add "quantity" ""
  let v := v.Add "fingerprintToken" ""
  let v := v.Add "fingerprintTokenVersion" ""
  let v := v.Add "updateFingerprintToken" "false"
  let v := v.Add "javascriptEnabled" "false"
  let v := v.Add "branch" d.branch
  let v := v.Add "account" d.account
  let v := v.Add "subaccount" "00"
  let v := v.Add "pin" d.pin
  v.Add "quickLink" page

/-- The `POST` of the credentials (db.go, lines 80-86). -/
def loginRequest (d : DeutscheBank) (page : String) : Request :=
  { method := "POST", url := baseURL ++ loginPath,
    header := [("Content-Type", "application/x-www-form-urlencoded")],
    form := loginForm d page }

/-- `DeutscheBank.login`: both URLs are constants that `http.NewRequest` accepts and
`cookiejar.New(nil)` has no error, so the only failures are those of `client.Do`. -/
def DeutscheBank.login (env : Env) (d : DeutscheBank) (page : String) (log : List Request) :
    List Request × Except Error Response :=
  match env.roundTrip log loginPageRequest with
  | .error err => (log ++ [loginPageRequest], .error err)
  | .ok _ =>
    match env.roundTrip (log ++ [loginPageRequest]) (loginRequest d page) with
    | .error err => (log ++ [loginPageRequest, loginRequest d page], .error err)
    | .ok resp => (log ++ [loginPageRequest, loginRequest d page], .ok resp)

/-- The loop `sel.Each(func(i, s) { path, ok = s.Attr(name) })`: every selected node
overwrites both variables. -/
def eachAttr (sel : List Node) (name : String) (path : String) (ok : Bool) : String × Bool :=
  sel.foldl (fun _ s => s.Attr name) (path, ok)

/-- The date-range `POST` (db.go, lines 127-133). -/
def dateRangeRequest (path : String) (tFrom tTo : Time) : Request :=
  { method := "POST", url := baseURL ++ path,
    header := [("Content-Type", "application/x-www-form-urlencoded")],
    form := dateRangeForm tFrom tTo }

/-- The export `GET` (db.go, lines 152-157). -/
def exportRequest (path : String) : Request :=
  { method := "GET", url := baseURL ++ path, header := [], form := [] }

/-- The reader configured at db.go, lines 163-165. -/
def dbReader : Reader := { NewReader with Comma := ';', FieldsPerRecord := -1 }

/-- `DeutscheBank.Statements`: the log of requests sent and the returned table or error. -/
def DeutscheBank.Statements (env : Env) (d : DeutscheBank) (tFrom tTo : Time)
    (log : List Request) : List Request × Except Error Table :=
  match d.login env pageDisplayTransactions log with
  | (log, .error err) => (log, .error err)
  | (log, .ok resp) =>
    match env.parseDocument resp with
    | .error err => (log, .error err)
    | .ok doc =>
      -- var path string; var ok bool
      let (path, ok) := eachAttr (findRefreshForm doc) "action" "" false
      if !ok then (log, .error (.text "failed to find refresh form on page"))
      else
        match env.urlError (baseURL ++ path) with
        | some err => (log, .error err)
        | none =>
          match env.roundTrip log (dateRangeRequest path tFrom tTo) with
          | .error err => (log ++ [dateRangeRequest path tFrom tTo], .error err)
          | .ok resp =>
            let log := log ++ [dateRangeRequest path tFrom tTo]
            match env.parseDocument resp with
            | .error err => (log, .error err)
            | .ok doc =>
              -- the same `path` and `ok` are assigned again
              let (path, ok) := eachAttr (findCsvLink doc) "href" path ok
              if !ok then (log, .error (.text "failed to find csv link on page"))
              else
                match env.urlError (baseURL ++ path) with
                | some err => (log, .error err)
                | none =>
                  match env.roundTrip log (exportRequest path) with
                  | .error err => (log ++ [exportRequest path], .error err)
                  | .ok resp =>
                    (log ++ [exportRequest path], csvResult (dbReader.ReadAll resp.body))

/-! ## Token-based adapter (bank/n26/n26.go) -/

def n26API : String := "https://api.tech26.de"

def basicAuth : String := "YW5kcm9pZDpzZWNyZXQ="

/-- A `N26` client. -/
structure N26 where
  token : String
  username : String
  password : String
deriving DecidableEq

/-- Go `n26.New`: the token starts empty. -/
def N26.New (username password : String) : N26 :=
  { token := "", username := username, password := password }

/-- The token request (n26.go, lines 36-51). -/
def tokenRequest (n : N26) : Request :=
  let data : Values := []
  let data := data.Set "grant_type" "password"
  let data := data.Set "username" n.username
  let data := data.Set "password" n.password
  { method := "POST", url := n26API ++ "/oauth/token",
    header := [("Authorization", "Basic " ++ basicAuth),
               ("Content-Type", "application/x-www-form-urlencoded")],
    form := data }

/-- `N26.login`: the client after the call, the log, and the returned error if any.
The status code is printed and not otherwise looked at. -/
def N26.login (env : Env) (n : N26) (log : List Request) :
    N26 × List Request × Option Error :=
  if n.token = "" then
    match env.roundTrip log (tokenRequest n) with
    | .error err => (n, log ++ [tokenRequest n], some err)
    | .ok resp =>
      match env.decodeToken resp with
      | .error err => (n, log ++ [tokenRequest n], some err)
      | .ok out => ({ n with token := out.AccessToken }, log ++ [tokenRequest n], none)
  else (n, log, none)

/-- The statements request (n26.go, lines 87-100) of a client holding `token`. -/
def statementsRequest (token : String) (tFrom tTo : Time) : Request :=
  let fromMili := tFrom.UnixNano.tdiv 1000000
  let toMili := tTo.UnixNano.tdiv 1000000
  { method := "GET",
    url := n26API ++ ("/api/smrt/reports/" ++ sprintfD fromMili ++ "/" ++ sprintfD toMili
      ++ "/statements"),
    header := [("Authorization", "bearer " ++ token)], form := [] }

/-- `N26.Statements`: the client after the call, the log, and the table or error. -/
def N26.Statements (env : Env) (n : N26) (tFrom tTo : Time) (log : List Request) :
    N26 × List Request × Except Error Table :=
  match n.login env log with
  | (n, log, some err) => (n, log, .error err)
  | (n, log, none) =>
    match env.roundTrip log (statementsRequest n.token tFrom tTo) with
    | .error err => (n, log ++ [statementsRequest n.token tFrom tTo], .error err)
    | .ok resp =>
      (n, log ++ [statementsRequest n.token tFrom tTo], csvResult (NewReader.ReadAll resp.body))

/-! ## The upload loop (main.go, lines 75-93) -/

/-- A Go `interface{}` cell of a `sheets.ValueRange`. -/
inductive Interface where
  | nil
  | string (s : String)
  | number (n : Int)
  | bool (b : Bool)
deriving DecidableEq

/-- `strTableToInterfaceTable`: both loops append to a fresh slice. -/
def strTableToInterfaceTable (table : Table) : List (List Interface) :=
  table.foldl (fun newTable row =>
    newTable ++ [row.foldl (fun newRow item => newRow ++ [Interface.string item]) []]) []

/-- The fields of `sheets.ValueRange` that `main` sets. -/
structure ValueRange where
  MajorDimension : String
  Range : String
  Values : List (List Interface)
deriving DecidableEq

/-- The `bank.Bank` interface: the result of the one `Statements` call of a run. -/
structure Bank where
  Statements : Time → Time → Except Error Table

/-- The calls `main` makes to its collaborators, in order. -/
inductive Event where
  | statements (bank : String) (tFrom tTo : Time)
  | update (spreadsheetID range valueInputOption : String) (body : ValueRange)
deriving DecidableEq

/-- How the loop ends: it runs to completion, or one of the two `log.Fatalf` ends the
process (with the arguments shown). -/
inductive Outcome where
  | completed
  | fatalStatements (bank : String) (err : Error)
  | fatalUpdate (err : Error)
deriving DecidableEq

/-- The sink: the error, if any, of `Values.Update(id, range, body).ValueInputOption(o).Do()`. -/
abbrev Sink := String → String → String → ValueRange → Option Error

/-- The loop `for bank, api := range banks` over the registry in its iteration order;
`trace` are the calls made so far. -/
def uploadAll (sink : Sink) (spreadsheetID : String) (t1 t2 : Time) :
    List (String × Bank) → List Event → List Event × Outcome
  | [], trace => (trace, .completed)
  | (bank, api) :: rest, trace =>
    match api.Statements t1 t2 with
    | .error err => (trace ++ [.statements bank t1 t2], .fatalStatements bank err)
    | .ok statements =>
      let sheetRange := bank ++ "!A1"
      let valRange : ValueRange :=
        { MajorDimension := "ROWS", Range := sheetRange,
          Values := strTableToInterfaceTable statements }
      let trace := trace ++
        [.statements bank t1 t2, .update spreadsheetID sheetRange "USER_ENTERED" valRange]
      match sink spreadsheetID sheetRange "USER_ENTERED" valRange with
      | some err => (trace, .fatalUpdate err)
      | none => uploadAll sink spreadsheetID t1 t2 rest trace

/-! ## Notions of the specification and fixtures -/

/-- The string `s` is exactly two decimal digits whose numeric value is `n`. -/
def IsTwoDigitsOf (s : String) (n : Nat) : Prop :=
  ∃ a b : Nat, a < 10 ∧ b < 10 ∧ 10 * a + b = n ∧
    s = String.mk [Char.ofNat (48 + a), Char.ofNat (48 + b)]

/-- 2016-01-01T00:00:00Z, the start of the range used by `main`. -/
def newYear2016 : Time :=
  { unixSec := 1451606400, nsec := 0, year := 2016, month := 1, day := 1 }

/-- 2016-12-31T00:00:00Z. -/
def newYearsEve2016 : Time :=
  { unixSec := 1483142400, nsec := 0, year := 2016, month := 12, day := 31 }

/-- 0005-01-01T00:00:00Z, a date with a one-digit year. -/
def yearFive : Time :=
  { unixSec := -62009366400, nsec := 0, year := 5, month := 1, day := 1 }

/-- 1969-12-31T23:59:59.9995Z, half a millisecond before the epoch. -/
def epochEve : Time :=
  { unixSec := -1, nsec := 999500000, year := 1969, month := 12, day := 31 }

/-- A token struct with every field at its zero value but the access token. -/
def tokenOut (accessToken : String) : TokenOut :=
  { AccessToken := accessToken, TokenType := "", RefreshToken := "", ExpiresIn := 0, Scope := "" }

/-- The JSON decoding of the bodies the mock token endpoints send: an object with
`access_token`, an object without it (the field keeps its zero value), anything else is
not JSON. -/
def mockDecodeToken (resp : Response) : Except Error TokenOut :=
  if resp.body = "\x7b\"access_token\":\"tok123\"\x7d" then .ok (tokenOut "tok123")
  else if resp.body = "\x7b\"error\":\"invalid_grant\"\x7d" then .ok (tokenOut "")
  else .error (.text "invalid character '<' looking for beginning of value")

/-- The mock of the specification's end-to-end scenario: the token endpoint returns
`access_token = tok123`; the export endpoint answers `X,Y\n1,2\n` to a request carrying
`Authorization: bearer tok123` and `401` to any other. -/
def n26Server : Env :=
  { roundTrip := fun _ req =>
      if req.url = n26API ++ "/oauth/token" then
        .ok { statusCode := 200, body := "\x7b\"access_token\":\"tok123\"\x7d" }
      else if req.header = [("Authorization", "bearer tok123")] then
        .ok { statusCode := 200, body := "X,Y\n1,2\n" }
      else .ok { statusCode := 401, body := "Unauthorized" }
    parseDocument := fun _ => .ok []
    decodeToken := mockDecodeToken
    urlError := fun _ => none }

/-- A mock whose token endpoint rejects the first token request with `401` and the JSON
body `{"error":"invalid_grant"}`, and grants `tok123` to later ones; the export endpoint
is that of `n26Server`. -/
def n26RejectOnce : Env :=
  { n26Server with
    roundTrip := fun log req =>
      if req.url = n26API ++ "/oauth/token" then
        (if log.any (fun r => r.url = n26API ++ "/oauth/token") then
          .ok { statusCode := 200, body := "\x7b\"access_token\":\"tok123\"\x7d" }
         else .ok { statusCode := 401, body := "\x7b\"error\":\"invalid_grant\"\x7d" })
      else n26Server.roundTrip log req }

/-- A mock whose token endpoint is behind a failing gateway: `502` with an HTML body. -/
def n26BadGateway : Env :=
  { n26Server with
    roundTrip := fun log req =>
      if req.url = n26API ++ "/oauth/token" then
        .ok { statusCode := 502, body := "<html>Bad Gateway</html>" }
      else n26Server.roundTrip log req }

/-- A client as `n26.New("user", "secret")` makes it. -/
def n26Client : N26 := N26.New "user" "secret"

/-- An authenticated page with the turnovers form, action `/x`. -/
def formPage : String := "<form id=\"accountTurnoversForm\" action=\"/x\"></form>"

/-- A results page with the export link `/y.csv`. -/
def linkPage : String := "<div class=\"csv\"><a href=\"/y.csv\">CSV</a></div>"

/-- A page with neither the form nor a link. -/
def plainPage : String := "<p>No turnovers</p>"

/-- The trees `html.Parse` builds for the three pages. -/
def mockParseDocument (resp : Response) : Except Error Document :=
  if resp.body = formPage then
    .ok [.element "html" [] [.element "head" [] [],
      .element "body" [] [.element "form" [("id", "accountTurnoversForm"), ("action", "/x")] []]]]
  else if resp.body = linkPage then
    .ok [.element "html" [] [.element "head" [] [],
      .element "body" [] [.element "div" [("class", "csv")]
        [.element "a" [("href", "/y.csv")] [.text "CSV"]]]]]
  else
    .ok [.element "html" [] [.element "head" [] [],
      .element "body" [] [.element "p" [] [.text "No turnovers"]]]]

/-- The mock of the specification's end-to-end scenario for the session-based adapter,
with the authenticated page `landing` and the results page `results`: the login `POST`
answers `landing`, the `POST` to `/x` answers `results`, the `GET` of `/y.csv` answers
`A;B\nC;D;E\n`, and every other request is answered `405`. -/
def dbServer (landing results : String) : Env :=
  { roundTrip := fun _ req =>
      if req.method = "GET" ∧ req.url = baseURL ++ loginPagePath then
        .ok { statusCode := 200, body := "<p>Login</p>" }
      else if req.method = "POST" ∧ req.url = baseURL ++ loginPath then
        .ok { statusCode := 200, body := landing }
      else if req.method = "POST" ∧ req.url = baseURL ++ "/x" then
        .ok { statusCode := 200, body := results }
      else if req.method = "GET" ∧ req.url = baseURL ++ "/y.csv" then
        .ok { statusCode := 200, body := "A;B\nC;D;E\n" }
      else .ok { statusCode := 405, body := "Method Not Allowed" }
    parseDocument := mockParseDocument
    decodeToken := mockDecodeToken
    urlError := fun _ => none }

/-- A client as `db.New("100", "1234567", "12345")` makes it. -/
def dbClient : DeutscheBank := { branch := "100", account := "1234567", pin := "12345" }

/-- The bodies of the updates of a trace that are keyed by `bank` (range `<bank>!A1`),
in order. -/
def updatesFor (bank : String) : List Event → List ValueRange
  | [] => []
  | .statements _ _ _ :: rest => updatesFor bank rest
  | .update _ range _ body :: rest =>
    if range = bank ++ "!A1" then body :: updatesFor bank rest else updatesFor bank rest

/-- A bank whose `Statements` returns `result`. -/
def constBank (result : Except Error Table) : Bank := { Statements := fun _ _ => result }

/-- A sink that accepts every update. -/
def acceptingSink : Sink := fun _ _ _ _ => none

/-! ### Well-formed CSV, as the specification understands it -/

/-- A field as it is written in a CSV file: its content, and whether it is written
between quotes. -/
structure Field where
  content : String
  quoted : Bool
deriving DecidableEq

/-- How a record ends in the file: `"\n"`, `"\r\n"`, or the end of the file. -/
inductive Terminator where
  | lf
  | crlf
  | eof
deriving DecidableEq

/-- A record with its terminator. -/
structure Line where
  fields : List Field
  terminator : Terminator
deriving DecidableEq

/-- The content of a quoted field, every `"` doubled. -/
def escapeQuotes : List Char → List Char
  | [] => []
  | c :: cs => if c = '"' then '"' :: '"' :: escapeQuotes cs else c :: escapeQuotes cs

/-- The characters of a field in the file. -/
def Field.render (f : Field) : List Char :=
  if f.quoted then '"' :: (escapeQuotes f.content.data ++ ['"']) else f.content.data

/-- The fields of a record separated by the delimiter. -/
def renderRecord (comma : Char) : List Field → List Char
  | [] => []
  | [f] => f.render
  | f :: g :: fs => f.render ++ comma :: renderRecord comma (g :: fs)

/-- The characters of a terminator. -/
def Terminator.render : Terminator → List Char
  | .lf => ['\n']
  | .crlf => ['\r', '\n']
  | .eof => []

/-- The characters of a file. -/
def renderFile (comma : Char) : List Line → List Char
  | [] => []
  | l :: ls => renderRecord comma l.fields ++ (l.terminator.render ++ renderFile comma ls)

/-- A field is well formed when its content has no carriage return and, unless it is
quoted, no delimiter, quote or line feed. -/
def Field.WellFormed (comma : Char) (f : Field) : Prop :=
  '\r' ∉ f.content.data ∧
    (f.quoted = false → ∀ c ∈ f.content.data, c ≠ comma ∧ c ≠ '"' ∧ c ≠ '\n')

/-- A record is well formed when it has a field, its fields are well formed, and it is
not written as an empty line (a single unquoted empty field). -/
def RecordWellFormed (comma : Char) (fs : List Field) : Prop :=
  fs ≠ [] ∧ (∀ f ∈ fs, f.WellFormed comma) ∧ fs ≠ [{ content := "", quoted := false }]

/-- A file is well formed when its records are, and only the last record may end with
the file. -/
def FileWellFormed (comma : Char) : List Line → Prop
  | [] => True
  | l :: ls => RecordWellFormed comma l.fields ∧ (l.terminator = .eof → ls = []) ∧
      FileWellFormed comma ls

/-- The table a file stands for: one row per record, in order, with the contents of the
fields of the record. -/
def fileTable (ls : List Line) : Table :=
  ls.map (fun l => l.fields.map (fun f => f.content))

/-- The file `A;B\nC;D;E\n` of the specification's scenario. -/
def raggedFile : List Line :=
  [{ fields := [⟨"A", false⟩, ⟨"B", false⟩], terminator := .lf },
   { fields := [⟨"C", false⟩, ⟨"D", false⟩, ⟨"E", false⟩], terminator := .lf }]

/-- A reader like `NewReader` with the field count check off: the records of a body. -/
def recordsReader (comma : Char) : Reader := { Comma := comma, FieldsPerRecord := -1 }

/-- The mock `n26Server` with the export body `X,Y\n1,2,3\n`. -/
def n26Ragged : Env :=
  { n26Server with
    roundTrip := fun log req =>
      if req.url = n26API ++ "/oauth/token" then n26Server.roundTrip log req
      else .ok { statusCode := 200, body := "X,Y\n1,2,3\n" } }

/-- The end of a record in `readRecord`: the field count check, then the next record. -/
def finishRecord (comma : Char) (rest : List Char) (fpr : Int) (record : List String)
    (records : Table) : Except CsvErr Table :=
  match checkFieldsPerRecord fpr record with
  | .error e => .error e
  | .ok fpr => readRecords comma rest .recordStart fpr [] (records ++ [record])

/-- The state of the reader after the characters of a field read from the state `st`. -/
def afterField (f : Field) (st : Scan) : Scan :=
  if f.quoted then .quoteSeen f.content.data
  else if f.content.data = [] then st else .unquoted f.content.data

/-- The states in which the reader holds the complete field `content`. -/
def EndsField (content : String) (st : Scan) : Prop :=
  st = .quoteSeen content.data ∨ st = .unquoted content.data ∨
    (st = .fieldStart ∧ content = "")

/-! ## Theorems -/

theorem sprintf02d_lt_hundred (n : Nat) (h : n < 100) :
    sprintf02d (n : Int) = String.mk [Char.ofNat (48 + n / 10), Char.ofNat (48 + n % 10)] := by
  interval_cases n <;> decide

theorem isTwoDigitsOf_sprintf02d (n : Nat) (h : n < 100) : IsTwoDigitsOf (sprintf02d (n : Int)) n :=
  ⟨n / 10, n % 10, by omega, by omega, by omega, sprintf02d_lt_hundred n h⟩

/-- C7: the form of the date-filter request carries the month and the day of `from` and of
`to` as exactly two decimal digits each (zero-padded), and the fixed fields
`subaccountAndCurrency=00`, `period=dynamicRange`, `periodDays=180`, `searchString=`.
No ordering of `from` and `to` is needed. -/
theorem C7_date_filter_fields (path : String) (tFrom tTo : Time)
    (hFrom : tFrom.Valid) (hTo : tTo.Valid) :
    let form := (dateRangeRequest path tFrom tTo).form
    (∃ s, form.lookup "periodStartMonth" = [s] ∧ IsTwoDigitsOf s tFrom.month) ∧
    (∃ s, form.lookup "periodStartDay" = [s] ∧ IsTwoDigitsOf s tFrom.day) ∧
    (∃ s, form.lookup "periodEndMonth" = [s] ∧ IsTwoDigitsOf s tTo.month) ∧
    (∃ s, form.lookup "periodEndDay" = [s] ∧ IsTwoDigitsOf s tTo.day) ∧
    form.lookup "subaccountAndCurrency" = ["00"] ∧
    form.lookup "period" = ["dynamicRange"] ∧
    form.lookup "periodDays" = ["180"] ∧
    form.lookup "searchString" = [""] := by
  obtain ⟨-, hm1, hm2, hd1, hd2⟩ := hFrom
  obtain ⟨-, hm3, hm4, hd3, hd4⟩ := hTo
  refine ⟨⟨_, ?_, isTwoDigitsOf_sprintf02d tFrom.month (by omega)⟩,
    ⟨_, ?_, isTwoDigitsOf_sprintf02d tFrom.day (by omega)⟩,
    ⟨_, ?_, isTwoDigitsOf_sprintf02d tTo.month (by omega)⟩,
    ⟨_, ?_, isTwoDigitsOf_sprintf02d tTo.day (by omega)⟩, ?_, ?_, ?_, ?_⟩ <;>
  simp [dateRangeRequest, dateRangeForm, Values.Set, Values.Add, Values.lookup]

/-- C7 at the two boundary dates of the specification: 2016-01-01 gives `01`/`01` and
2016-12-31 gives `12`/`31`. -/
theorem C7_date_filter_fields_witness :
    (let form := (dateRangeRequest "/x" newYear2016 newYearsEve2016).form
     (∃ s, form.lookup "periodStartMonth" = [s] ∧ IsTwoDigitsOf s newYear2016.month) ∧
     (∃ s, form.lookup "periodStartDay" = [s] ∧ IsTwoDigitsOf s newYear2016.day) ∧
     (∃ s, form.lookup "periodEndMonth" = [s] ∧ IsTwoDigitsOf s newYearsEve2016.month) ∧
     (∃ s, form.lookup "periodEndDay" = [s] ∧ IsTwoDigitsOf s newYearsEve2016.day) ∧
     form.lookup "subaccountAndCurrency" = ["00"] ∧
     form.lookup "period" = ["dynamicRange"] ∧
     form.lookup "periodDays" = ["180"] ∧
     form.lookup "searchString" = [""]) ∧
    (dateRangeRequest "/x" newYear2016 newYearsEve2016).form.lookup "periodStartMonth" = ["01"] ∧
    (dateRangeRequest "/x" newYear2016 newYearsEve2016).form.lookup "periodStartDay" = ["01"] ∧
    (dateRangeRequest "/x" newYear2016 newYearsEve2016).form.lookup "periodEndMonth" = ["12"] ∧
    (dateRangeRequest "/x" newYear2016 newYearsEve2016).form.lookup "periodEndDay" = ["31"] :=
  ⟨C7_date_filter_fields "/x" newYear2016 newYearsEve2016 (by decide) (by decide),
    by decide, by decide, by decide, by decide⟩

/-- C8 (the code at the failing input): for the year 5 the start year is sent as `5` and
the end year as `05`; the two year fields are not formatted identically. -/
theorem C8_year_fields_differ :
    yearFive.Valid ∧
    (dateRangeRequest "/x" yearFive yearFive).form.lookup "periodStartYear" = ["5"] ∧
    (dateRangeRequest "/x" yearFive yearFive).form.lookup "periodEndYear" = ["05"] := by
  decide

theorem unixNano_of_fits (t : Time) (h : t.FitsInt64) :
    t.UnixNano = t.unixSec * 1000000000 + (t.nsec : Int) := by
  obtain ⟨h1, h2⟩ := h
  unfold Time.UnixNano wrapInt64
  omega

theorem unixNano_tdiv_eq_unixMilli (t : Time) (hfit : t.FitsInt64) (hns : t.nsec < 1000000000)
    (h : 0 ≤ t.unixSec ∨ t.nsec % 1000000 = 0) :
    t.UnixNano.tdiv 1000000 = t.UnixMilli := by
  rw [unixNano_of_fits t hfit]
  unfold Time.UnixMilli
  have hdvd_or : 0 ≤ t.unixSec * 1000000000 + (t.nsec : Int) ∨
      (1000000 : Int) ∣ t.unixSec * 1000000000 + (t.nsec : Int) := by
    rcases h with h | h
    · left; omega
    · right; omega
  have hediv : (t.unixSec * 1000000000 + (t.nsec : Int)).tdiv 1000000
      = (t.unixSec * 1000000000 + (t.nsec : Int)) / 1000000 := by
    rcases hdvd_or with h0 | hd
    · exact Int.tdiv_eq_ediv h0 (by decide)
    · exact Int.tdiv_eq_ediv_of_dvd hd
  rw [hediv]
  push_cast
  omega

/-- C9 (counterexample): half a millisecond before the epoch the nanosecond timestamp fits
in 64 bits, `UnixMilli` is `-1`, and the path carries `0`. -/
theorem C9_counterexample :
    epochEve.Valid ∧ epochEve.FitsInt64 ∧ newYear2016.FitsInt64 ∧
    sprintfD epochEve.UnixMilli = "-1" ∧
    (statementsRequest "tok123" epochEve newYear2016).url
      = n26API ++ "/api/smrt/reports/0/1451606400000/statements" ∧
    (statementsRequest "tok123" epochEve newYear2016).url
      ≠ n26API ++ ("/api/smrt/reports/" ++ sprintfD epochEve.UnixMilli ++ "/"
          ++ sprintfD newYear2016.UnixMilli ++ "/statements") := by
  decide

/-- C9 (amended): when `login` returns without error, `Statements` sends as its next
request a `GET` whose path is `/api/smrt/reports/<F>/<T>/statements`, `from` first, with the
header `Authorization: bearer <cached token>`; `F` and `T` are the decimal `UnixMilli` of
`from` and `to` whenever these fit in 64 bits as nanoseconds and are at or after the epoch
or a whole number of milliseconds. -/
theorem C9_export_request (env : Env) (n n1 : N26) (log log1 : List Request) (tFrom tTo : Time)
    (hlogin : n.login env log = (n1, log1, none))
    (hFrom : tFrom.FitsInt64) (hTo : tTo.FitsInt64)
    (hFromNs : tFrom.nsec < 1000000000) (hToNs : tTo.nsec < 1000000000)
    (hFromMs : 0 ≤ tFrom.unixSec ∨ tFrom.nsec % 1000000 = 0)
    (hToMs : 0 ≤ tTo.unixSec ∨ tTo.nsec % 1000000 = 0) :
    ∃ req : Request,
      (n.Statements env tFrom tTo log).2.1 = log1 ++ [req] ∧
      req.method = "GET" ∧
      req.url = n26API ++ ("/api/smrt/reports/" ++ sprintfD tFrom.UnixMilli ++ "/"
        ++ sprintfD tTo.UnixMilli ++ "/statements") ∧
      req.header = [("Authorization", "bearer " ++ n1.token)] := by
  refine ⟨statementsRequest n1.token tFrom tTo, ?_, rfl, ?_, rfl⟩
  · unfold N26.Statements
    rw [hlogin]
    simp only
    cases env.roundTrip log1 (statementsRequest n1.token tFrom tTo) <;> rfl
  · simp only [statementsRequest, unixNano_tdiv_eq_unixMilli tFrom hFrom hFromNs hFromMs,
      unixNano_tdiv_eq_unixMilli tTo hTo hToNs hToMs]

/-- C9 at the mock of the specification: after the login the request goes to
`/api/smrt/reports/1451606400000/1483142400000/statements` with `bearer tok123`. -/
theorem C9_export_request_witness :
    (∃ req : Request,
      (n26Client.Statements n26Server newYear2016 newYearsEve2016 []).2.1
        = [tokenRequest n26Client] ++ [req] ∧
      req.method = "GET" ∧
      req.url = n26API ++ ("/api/smrt/reports/" ++ sprintfD newYear2016.UnixMilli ++ "/"
        ++ sprintfD newYearsEve2016.UnixMilli ++ "/statements") ∧
      req.header = [("Authorization", "bearer " ++ (tokenOut "tok123").AccessToken)]) ∧
    sprintfD newYear2016.UnixMilli = "1451606400000" :=
  ⟨C9_export_request n26Server n26Client
      { token := "tok123", username := "user", password := "secret" } []
      [tokenRequest n26Client] newYear2016 newYearsEve2016 (by decide) (by decide) (by decide)
      (by decide) (by decide) (by decide) (by decide),
    by decide⟩

/-! ### Token-based adapter: login and caching -/

theorem statementsRequest_url_ne_token (token : String) (tFrom tTo : Time) :
    (statementsRequest token tFrom tTo).url ≠ n26API ++ "/oauth/token" := by
  intro h
  have h2 := congrArg String.data h
  simp only [statementsRequest, String.data_append, List.append_cancel_left_eq] at h2
  revert h2
  generalize (sprintfD (tFrom.UnixNano.tdiv 1000000)).data = a
  generalize (sprintfD (tTo.UnixNano.tdiv 1000000)).data = b
  intro h2
  have h3 := congrArg (fun l => l.get? 1) h2
  simp at h3

theorem login_of_token_ne (env : Env) (n : N26) (log : List Request) (h : n.token ≠ "") :
    n.login env log = (n, log, none) := by
  unfold N26.login
  rw [if_neg h]

/-- C3 (counterexample): on a mock whose token endpoint first answers a JSON object
without `access_token`, the login of the first call returns without error and leaves the
token empty; the second call sends a token request again and uses another bearer token
than the first. -/
theorem C3_counterexample :
    (n26Client.login n26RejectOnce []).2.2 = none ∧
    n26Client.Statements n26RejectOnce newYear2016 newYearsEve2016 []
      = (n26Client,
         [tokenRequest n26Client, statementsRequest "" newYear2016 newYearsEve2016],
         .ok [["Unauthorized"]]) ∧
    n26Client.Statements n26RejectOnce newYear2016 newYearsEve2016
        [tokenRequest n26Client, statementsRequest "" newYear2016 newYearsEve2016]
      = ({ n26Client with token := "tok123" },
         [tokenRequest n26Client, statementsRequest "" newYear2016 newYearsEve2016,
          tokenRequest n26Client, statementsRequest "tok123" newYear2016 newYearsEve2016],
         .ok [["X", "Y"], ["1", "2"]]) ∧
    (tokenRequest n26Client).url = n26API ++ "/oauth/token" := by
  decide

/-- C3 (amended): after a first call to `Statements` whose login returned without error
and left a non-empty token on the instance, a second call on the same instance sends
exactly one request, the statements request, which does not go to the token endpoint and
carries the same bearer token as the statements request of the first call; the token of
the instance is unchanged. -/
theorem C3_token_reused (env : Env) (n n1 : N26) (log log1 : List Request)
    (res1 : Except Error Table) (tFrom tTo tFrom2 tTo2 : Time)
    (hfirst : n.Statements env tFrom tTo log = (n1, log1, res1))
    (hlogin : (n.login env log).2.2 = none)
    (htoken : n1.token ≠ "") :
    log1 = (n.login env log).2.1 ++ [statementsRequest n1.token tFrom tTo] ∧
    (n1.Statements env tFrom2 tTo2 log1).2.1
      = log1 ++ [statementsRequest n1.token tFrom2 tTo2] ∧
    (statementsRequest n1.token tFrom2 tTo2).url ≠ n26API ++ "/oauth/token" ∧
    (statementsRequest n1.token tFrom2 tTo2).header
      = (statementsRequest n1.token tFrom tTo).header ∧
    (n1.Statements env tFrom2 tTo2 log1).1 = n1 := by
  have hsecond : ∀ lg, (n1.Statements env tFrom2 tTo2 lg).2.1
      = lg ++ [statementsRequest n1.token tFrom2 tTo2] ∧
      (n1.Statements env tFrom2 tTo2 lg).1 = n1 := by
    intro lg
    unfold N26.Statements
    rw [login_of_token_ne env n1 lg htoken]
    simp only
    cases env.roundTrip lg (statementsRequest n1.token tFrom2 tTo2) <;> exact ⟨rfl, rfl⟩
  refine ⟨?_, (hsecond log1).1, statementsRequest_url_ne_token _ _ _, rfl, (hsecond log1).2⟩
  unfold N26.Statements at hfirst
  rcases hl : n.login env log with ⟨m, lg, e⟩
  rw [hl] at hfirst hlogin
  simp only at hlogin
  subst hlogin
  simp only at hfirst
  cases hr : env.roundTrip lg (statementsRequest m.token tFrom tTo) <;>
    rw [hr] at hfirst <;> simp only [Prod.mk.injEq] at hfirst <;>
    obtain ⟨rfl, rfl, -⟩ := hfirst <;> rfl

/-- C3 at the mock of the specification: the first call obtains `tok123`, the second
call sends only its statements request, with `bearer tok123`. -/
theorem C3_token_reused_witness :
    n26Client.Statements n26Server newYear2016 newYearsEve2016 []
      = ({ n26Client with token := "tok123" },
         [tokenRequest n26Client, statementsRequest "tok123" newYear2016 newYearsEve2016],
         .ok [["X", "Y"], ["1", "2"]]) ∧
    ([tokenRequest n26Client, statementsRequest "tok123" newYear2016 newYearsEve2016]
      = (n26Client.login n26Server []).2.1
          ++ [statementsRequest "tok123" newYear2016 newYearsEve2016] ∧
    (N26.Statements n26Server { n26Client with token := "tok123" } newYearsEve2016
        newYearsEve2016
        [tokenRequest n26Client, statementsRequest "tok123" newYear2016 newYearsEve2016]).2.1
      = [tokenRequest n26Client, statementsRequest "tok123" newYear2016 newYearsEve2016]
          ++ [statementsRequest "tok123" newYearsEve2016 newYearsEve2016] ∧
    (statementsRequest "tok123" newYearsEve2016 newYearsEve2016).url
      ≠ n26API ++ "/oauth/token" ∧
    (statementsRequest "tok123" newYearsEve2016 newYearsEve2016).header
      = (statementsRequest "tok123" newYear2016 newYearsEve2016).header ∧
    (N26.Statements n26Server { n26Client with token := "tok123" } newYearsEve2016
        newYearsEve2016
        [tokenRequest n26Client, statementsRequest "tok123" newYear2016 newYearsEve2016]).1
      = { n26Client with token := "tok123" }) :=
  ⟨by decide,
    C3_token_reused n26Server n26Client { n26Client with token := "tok123" } []
      [tokenRequest n26Client, statementsRequest "tok123" newYear2016 newYearsEve2016]
      (.ok [["X", "Y"], ["1", "2"]]) newYear2016 newYearsEve2016 newYearsEve2016
      newYearsEve2016 (by decide) (by decide) (by decide)⟩

/-- C4 (counterexample): the token endpoint answers `401` with a JSON object that has no
`access_token`; `login` returns no error, `Statements` sends the export `GET` with an empty
bearer token and returns the decoded answer without error. -/
theorem C4_counterexample :
    n26RejectOnce.roundTrip [] (tokenRequest n26Client)
      = .ok { statusCode := 401, body := "\x7b\"error\":\"invalid_grant\"\x7d" } ∧
    n26RejectOnce.decodeToken { statusCode := 401, body := "\x7b\"error\":\"invalid_grant\"\x7d" }
      = .ok (tokenOut "") ∧
    n26Client.Statements n26RejectOnce newYear2016 newYearsEve2016 []
      = (n26Client,
         [tokenRequest n26Client, statementsRequest "" newYear2016 newYearsEve2016],
         .ok [["Unauthorized"]]) ∧
    (statementsRequest "" newYear2016 newYearsEve2016).method = "GET" ∧
    (statementsRequest "" newYear2016 newYearsEve2016).header = [("Authorization", "bearer ")] := by
  decide

/-- C4 (amended): when the adapter holds no token and the token request fails in
transport, or its response does not decode as JSON into the token struct, `Statements`
returns that error and no rows, and the only request sent is the token `POST`: the export
`GET` is not sent. (The status code is not examined.) -/
theorem C4_login_error_aborts (env : Env) (n : N26) (log : List Request) (tFrom tTo : Time)
    (err : Error) (hempty : n.token = "")
    (hfail : env.roundTrip log (tokenRequest n) = .error err ∨
      ∃ resp, env.roundTrip log (tokenRequest n) = .ok resp ∧ env.decodeToken resp = .error err) :
    n.Statements env tFrom tTo log = (n, log ++ [tokenRequest n], .error err) ∧
    (tokenRequest n).method = "POST" := by
  refine ⟨?_, rfl⟩
  unfold N26.Statements N26.login
  rw [if_pos hempty]
  rcases hfail with h | ⟨resp, h, hd⟩
  · rw [h]
  · rw [h]; simp only [hd]

/-- C4 at a mock whose token endpoint answers `502` with an HTML body: the JSON decoding
fails and only the token request is sent. -/
theorem C4_login_error_aborts_witness :
    n26Client.token = "" ∧
    n26BadGateway.roundTrip [] (tokenRequest n26Client)
      = .ok { statusCode := 502, body := "<html>Bad Gateway</html>" } ∧
    n26Client.Statements n26BadGateway newYear2016 newYearsEve2016 []
      = (n26Client, [] ++ [tokenRequest n26Client],
         .error (.text "invalid character '<' looking for beginning of value")) ∧
    (tokenRequest n26Client).method = "POST" :=
  ⟨by decide, by decide,
    C4_login_error_aborts n26BadGateway n26Client [] newYear2016 newYearsEve2016
      (.text "invalid character '<' looking for beginning of value") (by decide)
      (Or.inr ⟨{ statusCode := 502, body := "<html>Bad Gateway</html>" }, by decide, by decide⟩)⟩

/-! ### Session-based adapter: the two page checks -/

/-- C2: when the login succeeds and the parsed authenticated page has no element with id
`accountTurnoversForm`, `Statements` returns the error "failed to find refresh form on
page" and no rows, and the requests sent are exactly the two of the login: no date-range
`POST` is issued. -/
theorem C2_missing_refresh_form (env : Env) (d : DeutscheBank) (tFrom tTo : Time)
    (log : List Request) (landing page : Response) (doc : Document)
    (hget : env.roundTrip log loginPageRequest = .ok landing)
    (hpost : env.roundTrip (log ++ [loginPageRequest]) (loginRequest d pageDisplayTransactions)
      = .ok page)
    (hdoc : env.parseDocument page = .ok doc)
    (hnone : findRefreshForm doc = []) :
    d.Statements env tFrom tTo log
      = (log ++ [loginPageRequest, loginRequest d pageDisplayTransactions],
         .error (.text "failed to find refresh form on page")) := by
  unfold DeutscheBank.Statements DeutscheBank.login
  rw [hget]
  simp only [hpost, hdoc, hnone, eachAttr, List.foldl_nil]
  rfl

/-- C2 at a mock whose authenticated page lacks the form. -/
theorem C2_missing_refresh_form_witness :
    findRefreshForm [.element "html" [] [.element "head" [] [],
      .element "body" [] [.element "p" [] [.text "No turnovers"]]]] = [] ∧
    dbClient.Statements (dbServer plainPage linkPage) newYear2016 newYearsEve2016 []
      = ([] ++ [loginPageRequest, loginRequest dbClient pageDisplayTransactions],
         .error (.text "failed to find refresh form on page")) :=
  ⟨rfl,
    C2_missing_refresh_form (dbServer plainPage linkPage) dbClient newYear2016 newYearsEve2016
      [] { statusCode := 200, body := "<p>Login</p>" } { statusCode := 200, body := plainPage }
      [.element "html" [] [.element "head" [] [],
        .element "body" [] [.element "p" [] [.text "No turnovers"]]]]
      (by decide) (by decide) rfl rfl⟩

/-- C1 (the code at the failing input): the authenticated page has the form with action
`/x` and the results page has no anchor under a `.csv` container. `ok` is still `true`
from the form lookup and `path` still `/x`, so the check passes: `Statements` sends the
export `GET` to `/x` and returns the decoded answer instead of the error. -/
theorem C1_stale_ok_skips_check :
    mockParseDocument { statusCode := 200, body := plainPage }
      = .ok [.element "html" [] [.element "head" [] [],
          .element "body" [] [.element "p" [] [.text "No turnovers"]]]] ∧
    findCsvLink [.element "html" [] [.element "head" [] [],
      .element "body" [] [.element "p" [] [.text "No turnovers"]]]] = [] ∧
    dbClient.Statements (dbServer formPage plainPage) newYear2016 newYearsEve2016 []
      = ([loginPageRequest, loginRequest dbClient pageDisplayTransactions,
          dateRangeRequest "/x" newYear2016 newYearsEve2016, exportRequest "/x"],
         .ok [["Method Not Allowed"]]) ∧
    (exportRequest "/x").method = "GET" :=
  ⟨rfl, rfl, by decide, rfl⟩

/-! ### The upload loop -/

theorem strTableToInterfaceTable_eq_map (table : Table) :
    strTableToInterfaceTable table = table.map (fun row => row.map Interface.string) := by
  have hrow : ∀ (row : List String) (acc : List Interface),
      row.foldl (fun newRow item => newRow ++ [Interface.string item]) acc
        = acc ++ row.map Interface.string := by
    intro row
    induction row with
    | nil => intro acc; simp
    | cons x xs ih => intro acc; simp [ih]
  have htab : ∀ (tbl : Table) (acc : List (List Interface)),
      tbl.foldl (fun newTable row =>
        newTable ++ [row.foldl (fun newRow item => newRow ++ [Interface.string item]) []]) acc
        = acc ++ tbl.map (fun row => row.map Interface.string) := by
    intro tbl
    induction tbl with
    | nil => intro acc; simp
    | cons x xs ih => intro acc; rw [List.foldl_cons, ih]; simp [hrow]
  simpa [strTableToInterfaceTable] using htab table []

theorem sheetRange_injective (a b : String) (h : a ++ "!A1" = b ++ "!A1") : a = b := by
  have h2 := congrArg String.data h
  simp only [String.data_append, List.append_cancel_right_eq] at h2
  exact String.ext h2

theorem updatesFor_append (bank : String) (xs ys : List Event) :
    updatesFor bank (xs ++ ys) = updatesFor bank xs ++ updatesFor bank ys := by
  induction xs with
  | nil => rfl
  | cons e es ih =>
    cases e with
    | statements b ta tb => simpa [updatesFor] using ih
    | update i r o body =>
      by_cases hr : r = bank ++ "!A1" <;> simp [updatesFor, hr, ih]

theorem uploadAll_trace (sink : Sink) (id : String) (t1 t2 : Time)
    (banks : List (String × Bank)) (trace : List Event) :
    uploadAll sink id t1 t2 banks trace
      = (trace ++ (uploadAll sink id t1 t2 banks []).1, (uploadAll sink id t1 t2 banks []).2) := by
  induction banks generalizing trace with
  | nil => simp [uploadAll]
  | cons b rest ih =>
    obtain ⟨bank, api⟩ := b
    unfold uploadAll
    cases api.Statements t1 t2 with
    | error err => simp
    | ok rows =>
      simp only
      cases sink id (bank ++ "!A1") "USER_ENTERED"
        { MajorDimension := "ROWS", Range := bank ++ "!A1",
          Values := strTableToInterfaceTable rows } with
      | some err => simp
      | none =>
        simp only
        rw [ih (trace ++ _), ih ([] ++ _)]
        simp

theorem uploadAll_statements_mem (sink : Sink) (id : String) (t1 t2 : Time)
    (banks : List (String × Bank)) (b : String) (ta tb : Time)
    (h : Event.statements b ta tb ∈ (uploadAll sink id t1 t2 banks []).1) :
    b ∈ banks.map Prod.fst := by
  induction banks with
  | nil => simp [uploadAll] at h
  | cons x rest ih =>
    obtain ⟨bank, api⟩ := x
    unfold uploadAll at h
    cases hs : api.Statements t1 t2 with
    | error err =>
      rw [hs] at h
      simp at h
      simp [h.1]
    | ok rows =>
      rw [hs] at h
      simp only at h
      cases hk : sink id (bank ++ "!A1") "USER_ENTERED"
        { MajorDimension := "ROWS", Range := bank ++ "!A1",
          Values := strTableToInterfaceTable rows } with
      | some err =>
        rw [hk] at h
        simp at h
        simp [h.1]
      | none =>
        rw [hk] at h
        simp only at h
        rw [uploadAll_trace] at h
        simp at h
        rcases h with h | h
        · simp [h.1]
        · simp [ih h]

theorem uploadAll_updatesFor_nil (sink : Sink) (id : String) (t1 t2 : Time)
    (banks : List (String × Bank)) (b : String) (h : b ∉ banks.map Prod.fst) :
    updatesFor b (uploadAll sink id t1 t2 banks []).1 = [] := by
  induction banks with
  | nil => simp [uploadAll, updatesFor]
  | cons x rest ih =>
    obtain ⟨bank, api⟩ := x
    simp only [List.map_cons, List.mem_cons, not_or] at h
    have hne : ¬ bank ++ "!A1" = b ++ "!A1" := fun hh => h.1 (sheetRange_injective _ _ hh).symm
    unfold uploadAll
    cases api.Statements t1 t2 with
    | error err => simp [updatesFor]
    | ok rows =>
      simp only
      cases sink id (bank ++ "!A1") "USER_ENTERED"
        { MajorDimension := "ROWS", Range := bank ++ "!A1",
          Values := strTableToInterfaceTable rows } with
      | some err => simp [updatesFor, hne]
      | none =>
        simp only
        rw [uploadAll_trace, updatesFor_append, ih h.2]
        simp [updatesFor, hne]

/-- C10: in a run over a registry (distinct identifiers, any iteration order) in which
the `Statements` call of `bank` is made and returns an error, the run ends at once with
the fatal report for `bank`; the sink receives no update for `bank`; for no bank later in
the iteration is `Statements` called or an update sent; and for every bank earlier in the
iteration `Statements` succeeded and the sink received exactly one update keyed by it,
with range `<identifier>!A1` and the bank's rows, cell for cell. -/
theorem C10_fail_fast (sink : Sink) (id : String) (t1 t2 : Time)
    (pre post : List (String × Bank)) (bank : String) (api : Bank) (err : Error)
    (hnodup : ((pre ++ (bank, api) :: post).map Prod.fst).Nodup)
    (hcalled : Event.statements bank t1 t2
      ∈ (uploadAll sink id t1 t2 (pre ++ (bank, api) :: post) []).1)
    (herr : api.Statements t1 t2 = .error err) :
    (uploadAll sink id t1 t2 (pre ++ (bank, api) :: post) []).2
      = Outcome.fatalStatements bank err ∧
    updatesFor bank (uploadAll sink id t1 t2 (pre ++ (bank, api) :: post) []).1 = [] ∧
    (∀ b ∈ post, (∀ ta tb, Event.statements b.1 ta tb
        ∉ (uploadAll sink id t1 t2 (pre ++ (bank, api) :: post) []).1) ∧
      updatesFor b.1 (uploadAll sink id t1 t2 (pre ++ (bank, api) :: post) []).1 = []) ∧
    (∀ b ∈ pre, ∃ rows : Table, b.2.Statements t1 t2 = .ok rows ∧
      updatesFor b.1 (uploadAll sink id t1 t2 (pre ++ (bank, api) :: post) []).1
        = [{ MajorDimension := "ROWS", Range := b.1 ++ "!A1",
             Values := rows.map (fun row => row.map Interface.string) }]) := by
  induction pre with
  | nil =>
    simp only [List.nil_append, List.map_cons, List.nodup_cons] at hnodup
    have htr : uploadAll sink id t1 t2 ((bank, api) :: post) []
        = ([Event.statements bank t1 t2], Outcome.fatalStatements bank err) := by
      unfold uploadAll
      rw [herr]
      rfl
    rw [List.nil_append, htr]
    refine ⟨rfl, rfl, ?_, by simp⟩
    intro b hb
    refine ⟨?_, rfl⟩
    intro ta tb hmem
    simp at hmem
    exact hnodup.1 (hmem.1 ▸ List.mem_map_of_mem Prod.fst hb)
  | cons x pre ih =>
    obtain ⟨b0, a0⟩ := x
    simp only [List.cons_append, List.map_cons, List.nodup_cons] at hnodup
    obtain ⟨hb0, hnodup⟩ := hnodup
    have hbank : bank ≠ b0 := by
      intro h
      apply hb0
      subst h
      simp
    have hne : ¬ b0 ++ "!A1" = bank ++ "!A1" := fun hh => hbank (sheetRange_injective _ _ hh).symm
    simp only [List.cons_append] at hcalled ⊢
    unfold uploadAll at hcalled ⊢
    cases hs : a0.Statements t1 t2 with
    | error e0 =>
      rw [hs] at hcalled
      simp at hcalled
      exact absurd hcalled hbank
    | ok rows =>
      rw [hs] at hcalled
      simp only at hcalled ⊢
      cases hk : sink id (b0 ++ "!A1") "USER_ENTERED"
        { MajorDimension := "ROWS", Range := b0 ++ "!A1",
          Values := strTableToInterfaceTable rows } with
      | some e0 =>
        rw [hk] at hcalled
        simp at hcalled
        exact absurd hcalled hbank
      | none =>
        rw [hk] at hcalled
        simp only at hcalled ⊢
        rw [uploadAll_trace] at hcalled ⊢
        simp only [List.nil_append, List.mem_append, List.mem_cons, List.mem_singleton,
          Event.statements.injEq, reduceCtorEq, or_false, List.not_mem_nil] at hcalled
        have hcalled2 : Event.statements bank t1 t2
            ∈ (uploadAll sink id t1 t2 (pre ++ (bank, api) :: post) []).1 := by
          rcases hcalled with h | h
          · exact absurd h.1 hbank
          · exact h
        obtain ⟨hA, hB, hC, hD⟩ := ih hnodup hcalled2
        refine ⟨hA, ?_, ?_, ?_⟩
        · simp only
          rw [updatesFor_append, hB]
          simp [updatesFor, hne]
        · intro b hb
          have hbne : b.1 ≠ b0 := by
            intro h
            apply hb0
            rw [← h]
            simp only [List.map_append, List.map_cons, List.mem_append, List.mem_cons,
              List.mem_map]
            exact Or.inr (Or.inr ⟨b, hb, rfl⟩)
          have hne2 : ¬ b0 ++ "!A1" = b.1 ++ "!A1" :=
            fun hh => hbne (sheetRange_injective _ _ hh).symm
          refine ⟨?_, ?_⟩
          · intro ta tb hmem
            simp only [List.nil_append, List.mem_append, List.mem_cons, List.mem_singleton,
              Event.statements.injEq, reduceCtorEq, or_false, List.not_mem_nil] at hmem
            rcases hmem with h | h
            · exact hbne h.1
            · exact (hC b hb).1 ta tb h
          · simp only
            rw [updatesFor_append, (hC b hb).2]
            simp [updatesFor, hne2]
        · intro b hb
          simp only [List.mem_cons] at hb
          rcases hb with rfl | hb
          · refine ⟨rows, hs, ?_⟩
            simp only
            rw [updatesFor_append,
              uploadAll_updatesFor_nil sink id t1 t2 _ b0 hb0]
            simp [updatesFor, strTableToInterfaceTable_eq_map]
          · obtain ⟨rws, hr1, hr2⟩ := hD b hb
            have hbne : b.1 ≠ b0 := by
              intro h
              apply hb0
              rw [← h]
              simp only [List.map_append, List.mem_append, List.mem_map]
              exact Or.inl ⟨b, hb, rfl⟩
            have hne2 : ¬ b0 ++ "!A1" = b.1 ++ "!A1" :=
              fun hh => hbne (sheetRange_injective _ _ hh).symm
            refine ⟨rws, hr1, ?_⟩
            simp only
            rw [updatesFor_append, hr2]
            simp [updatesFor, hne2]


/-! ### encoding/csv: reading a well-formed file -/

theorem readRecords_unquoted_run (comma : Char) (s : List Char)
    (hs : ∀ c ∈ s, c ≠ comma ∧ c ≠ '"' ∧ c ≠ '\n') (buf rest : List Char) (fpr : Int)
    (record : List String) (records : Table) :
    readRecords comma (s ++ rest) (.unquoted buf) fpr record records
      = readRecords comma rest (.unquoted (buf ++ s)) fpr record records := by
  induction s generalizing buf with
  | nil => simp
  | cons c cs ih =>
    have hc := hs c (List.mem_cons_self _ _)
    rw [List.cons_append, readRecords, if_neg hc.2.1, if_neg hc.1, if_neg hc.2.2,
      ih (fun x hx => hs x (List.mem_cons_of_mem _ hx))]
    simp

theorem readRecords_quoted_run (comma : Char) (s : List Char) (buf rest : List Char) (fpr : Int)
    (record : List String) (records : Table) :
    readRecords comma (escapeQuotes s ++ rest) (.quoted buf) fpr record records
      = readRecords comma rest (.quoted (buf ++ s)) fpr record records := by
  induction s generalizing buf with
  | nil => simp [escapeQuotes]
  | cons c cs ih =>
    by_cases hc : c = '"'
    · subst hc
      rw [escapeQuotes, if_pos rfl, List.cons_append, List.cons_append, readRecords, if_pos rfl,
        readRecords, if_pos rfl, ih]
      simp
    · rw [escapeQuotes, if_neg hc, List.cons_append, readRecords, if_neg hc, ih]
      simp

theorem readRecords_field (comma : Char) (f : Field) (hf : f.WellFormed comma) (st : Scan)
    (hst : st = .recordStart ∨ st = .fieldStart) (rest : List Char) (fpr : Int)
    (record : List String) (records : Table) :
    readRecords comma (f.render ++ rest) st fpr record records
      = readRecords comma rest (afterField f st) fpr record records := by
  unfold Field.render afterField
  by_cases hq : f.quoted = true
  · rw [if_pos hq, if_pos hq]
    have hstep : ∀ xs, readRecords comma ('"' :: xs) st fpr record records
        = readRecords comma xs (.quoted []) fpr record records := by
      intro xs
      rcases hst with rfl | rfl
      · rw [readRecords, if_neg (by decide), if_pos rfl]
      · rw [readRecords, if_pos rfl]
    rw [List.cons_append, hstep, List.append_assoc, readRecords_quoted_run, List.singleton_append,
      readRecords, if_pos rfl, List.nil_append]
  · rw [if_neg hq, if_neg hq]
    have hplain := hf.2 (by simpa using hq)
    cases hs : f.content.data with
    | nil => simp
    | cons c cs =>
      rw [hs] at hplain
      have hc := hplain c (List.mem_cons_self _ _)
      have hstep : readRecords comma (c :: (cs ++ rest)) st fpr record records
          = readRecords comma (cs ++ rest) (.unquoted [c]) fpr record records := by
        rcases hst with rfl | rfl
        · rw [readRecords, if_neg hc.2.2, if_neg hc.2.1, if_neg hc.1]
        · rw [readRecords, if_neg hc.2.1, if_neg hc.1, if_neg hc.2.2]
      rw [if_neg (by simp), List.cons_append, hstep,
        readRecords_unquoted_run comma cs (fun x hx => hplain x (List.mem_cons_of_mem _ hx))]
      simp

theorem endsField_afterField (f : Field) (st : Scan)
    (h : st = .fieldStart ∨ f ≠ { content := "", quoted := false }) :
    EndsField f.content (afterField f st) := by
  unfold EndsField afterField
  by_cases hq : f.quoted = true
  · rw [if_pos hq]; exact Or.inl rfl
  · rw [if_neg hq]
    by_cases hs : f.content.data = []
    · rw [if_pos hs]
      have hc : f.content = "" := String.ext hs
      rcases h with h | h
      · exact Or.inr (Or.inr ⟨h, hc⟩)
      · exfalso
        apply h
        cases f with
        | mk content quoted =>
          simp only [Bool.not_eq_true] at hq
          simp only at hc
          rw [hc, hq]
    · rw [if_neg hs]; exact Or.inr (Or.inl rfl)

theorem readRecords_comma (comma : Char) (hcq : comma ≠ '"') (hcn : comma ≠ '\n') (f : Field)
    (st : Scan) (hst : st = .recordStart ∨ st = .fieldStart) (rest : List Char) (fpr : Int)
    (record : List String) (records : Table) :
    readRecords comma (comma :: rest) (afterField f st) fpr record records
      = readRecords comma rest .fieldStart fpr (record ++ [f.content]) records := by
  unfold afterField
  by_cases hq : f.quoted = true
  · rw [if_pos hq, readRecords, if_neg hcq, if_pos rfl]
  · rw [if_neg hq]
    by_cases hs : f.content.data = []
    · rw [if_pos hs]
      have hc : f.content = "" := String.ext hs
      rcases hst with rfl | rfl
      · rw [readRecords, if_neg hcn, if_neg hcq, if_pos rfl, hc]
      · rw [readRecords, if_neg hcq, if_pos rfl, hc]
    · rw [if_neg hs, readRecords, if_neg hcq, if_pos rfl]

theorem readRecords_newline (comma : Char) (hcn : comma ≠ '\n') (content : String) (st : Scan)
    (hst : EndsField content st) (rest : List Char) (fpr : Int)
    (record : List String) (records : Table) :
    readRecords comma ('\n' :: rest) st fpr record records
      = finishRecord comma rest fpr (record ++ [content]) records := by
  unfold finishRecord
  rcases hst with rfl | rfl | ⟨rfl, rfl⟩
  · rw [readRecords, if_neg (by decide), if_neg (Ne.symm hcn), if_pos rfl]
  · rw [readRecords, if_neg (by decide), if_neg (Ne.symm hcn), if_pos rfl]
  · rw [readRecords, if_neg (by decide), if_neg (Ne.symm hcn), if_pos rfl]

theorem readRecords_eof (comma : Char) (content : String) (st : Scan)
    (hst : EndsField content st) (fpr : Int) (record : List String) (records : Table) :
    readRecords comma [] st fpr record records
      = finishRecord comma [] fpr (record ++ [content]) records := by
  unfold finishRecord
  rcases hst with rfl | rfl | ⟨rfl, rfl⟩ <;>
    rw [readRecords] <;> cases checkFieldsPerRecord fpr (record ++ [_]) <;> simp [readRecords]

theorem readRecords_record (comma : Char) (hcq : comma ≠ '"') (hcn : comma ≠ '\n')
    (fs : List Field) (hne : fs ≠ []) (hwf : ∀ f ∈ fs, f.WellFormed comma) (st : Scan)
    (hst : st = .fieldStart ∨
      (st = .recordStart ∧ fs ≠ [{ content := "", quoted := false }]))
    (tail rest : List Char) (htail : tail = '\n' :: rest ∨ (tail = [] ∧ rest = []))
    (fpr : Int) (record : List String) (records : Table) :
    readRecords comma (renderRecord comma fs ++ tail) st fpr record records
      = finishRecord comma rest fpr (record ++ fs.map (fun f => f.content)) records := by
  induction fs generalizing st record with
  | nil => exact absurd rfl hne
  | cons f gs ih =>
    have hst2 : st = .recordStart ∨ st = .fieldStart := by
      rcases hst with h | h
      · exact Or.inr h
      · exact Or.inl h.1
    cases gs with
    | nil =>
      have hends : EndsField f.content (afterField f st) := by
        apply endsField_afterField
        rcases hst with h | h
        · exact Or.inl h
        · right
          intro hf
          apply h.2
          rw [hf]
      rw [renderRecord, readRecords_field comma f (hwf f (List.mem_cons_self _ _)) st hst2]
      rcases htail with rfl | ⟨rfl, rfl⟩
      · rw [readRecords_newline comma hcn f.content _ hends]; rfl
      · rw [readRecords_eof comma f.content _ hends]; rfl
    | cons g hs =>
      rw [renderRecord, List.append_assoc,
        readRecords_field comma f (hwf f (List.mem_cons_self _ _)) st hst2,
        List.cons_append, readRecords_comma comma hcq hcn f st hst2,
        ih (by simp) (fun x hx => hwf x (List.mem_cons_of_mem _ hx)) .fieldStart (Or.inl rfl)]
      simp

theorem normalizeLines_append (p rest : List Char) (hp : '\r' ∉ p) :
    normalizeLines (p ++ rest) = p ++ normalizeLines rest := by
  induction p with
  | nil => rfl
  | cons c cs ih =>
    simp only [List.mem_cons, not_or] at hp
    rw [List.cons_append, normalizeLines, if_neg (fun h => hp.1 h.1.symm), ih hp.2,
      List.cons_append]

theorem normalizeLines_crlf (rest : List Char) :
    normalizeLines ('\r' :: '\n' :: rest) = '\n' :: normalizeLines rest := by
  rw [normalizeLines, if_pos ⟨rfl, Or.inr rfl⟩, normalizeLines,
    if_neg (fun h => absurd h.1 (by decide))]

theorem not_mem_escapeQuotes (s : List Char) (hs : '\r' ∉ s) : '\r' ∉ escapeQuotes s := by
  induction s with
  | nil => simp [escapeQuotes]
  | cons c cs ih =>
    simp only [List.mem_cons, not_or] at hs
    by_cases hc : c = '"'
    · rw [escapeQuotes, if_pos hc]
      simp only [List.mem_cons, not_or]
      exact ⟨by decide, by decide, ih hs.2⟩
    · rw [escapeQuotes, if_neg hc]
      simp only [List.mem_cons, not_or]
      exact ⟨hs.1, ih hs.2⟩

theorem not_mem_render (comma : Char) (f : Field) (hf : f.WellFormed comma) :
    '\r' ∉ f.render := by
  unfold Field.render
  by_cases hq : f.quoted = true
  · rw [if_pos hq]
    simp only [List.mem_cons, List.mem_append, List.mem_singleton, not_or, List.not_mem_nil]
    exact ⟨by decide, not_mem_escapeQuotes _ hf.1, by decide, not_false⟩
  · rw [if_neg hq]
    exact hf.1

theorem not_mem_renderRecord (comma : Char) (hcr : comma ≠ '\r') (fs : List Field)
    (hwf : ∀ f ∈ fs, f.WellFormed comma) : '\r' ∉ renderRecord comma fs := by
  induction fs with
  | nil => simp [renderRecord]
  | cons f gs ih =>
    cases gs with
    | nil => exact not_mem_render comma f (hwf f (List.mem_cons_self _ _))
    | cons g hs =>
      rw [renderRecord]
      simp only [List.mem_append, List.mem_cons, not_or]
      exact ⟨not_mem_render comma f (hwf f (List.mem_cons_self _ _)), Ne.symm hcr,
        ih (fun x hx => hwf x (List.mem_cons_of_mem _ hx))⟩

theorem readRecords_file (comma : Char) (hcq : comma ≠ '"') (hcn : comma ≠ '\n')
    (hcr : comma ≠ '\r') (ls : List Line) (hwf : FileWellFormed comma ls) (records : Table) :
    readRecords comma (normalizeLines (renderFile comma ls)) .recordStart (-1) [] records
      = .ok (records ++ fileTable ls) := by
  induction ls generalizing records with
  | nil => simp [renderFile, normalizeLines, readRecords, fileTable]
  | cons l ls ih =>
    obtain ⟨hrec, hlast, hrest⟩ := hwf
    have hfin : ∀ rest : List Char, rest = normalizeLines (renderFile comma ls) →
        finishRecord comma rest (-1) ([] ++ l.fields.map (fun f => f.content)) records
          = .ok (records ++ fileTable (l :: ls)) := by
      intro rest hr
      unfold finishRecord checkFieldsPerRecord
      rw [if_neg (by decide), if_neg (by decide)]
      simp only
      rw [hr, ih hrest]
      simp [fileTable]
    rw [renderFile, normalizeLines_append _ _ (not_mem_renderRecord comma hcr _ hrec.2.1)]
    cases ht : l.terminator with
    | lf =>
      rw [Terminator.render, List.singleton_append,
        normalizeLines, if_neg (fun h => absurd h.1 (by decide)),
        readRecords_record comma hcq hcn l.fields hrec.1 hrec.2.1 .recordStart
          (Or.inr ⟨rfl, hrec.2.2⟩) _ _ (Or.inl rfl)]
      exact hfin _ rfl
    | crlf =>
      rw [Terminator.render, List.cons_append, List.singleton_append, normalizeLines_crlf,
        readRecords_record comma hcq hcn l.fields hrec.1 hrec.2.1 .recordStart
          (Or.inr ⟨rfl, hrec.2.2⟩) _ _ (Or.inl rfl)]
      exact hfin _ rfl
    | eof =>
      have hnil := hlast ht
      subst hnil
      rw [Terminator.render, List.nil_append, renderFile, normalizeLines,
        readRecords_record comma hcq hcn l.fields hrec.1 hrec.2.1 .recordStart
          (Or.inr ⟨rfl, hrec.2.2⟩) [] [] (Or.inr ⟨rfl, rfl⟩)]
      exact hfin [] (by simp [renderFile, normalizeLines])

theorem readAll_wellFormed (comma : Char) (hvalid : validDelim comma = true) (ls : List Line)
    (hwf : FileWellFormed comma ls) :
    (recordsReader comma).ReadAll (String.mk (renderFile comma ls)) = .ok (fileTable ls) := by
  have hv := hvalid
  simp only [validDelim, Bool.and_eq_true, bne_iff_ne, ne_eq] at hv
  obtain ⟨⟨⟨⟨-, hcq⟩, hcr⟩, hcn⟩, -⟩ := hv
  unfold Reader.ReadAll recordsReader
  simp only
  rw [if_pos hvalid, readRecords_file comma hcq hcn hcr ls hwf]
  simp

/-! ### encoding/csv: the field count check -/

theorem finishRecord_negative (comma : Char) (rest : List Char) (record : List String)
    (records : Table) :
    finishRecord comma rest (-1) record records
      = readRecords comma rest .recordStart (-1) [] (records ++ [record]) := by
  unfold finishRecord checkFieldsPerRecord
  rw [if_neg (by decide), if_neg (by decide)]

theorem readRecords_cons_eq (comma : Char) (c : Char) (cs : List Char) (st : Scan) (fpr : Int)
    (record : List String) (records : Table) :
    readRecords comma (c :: cs) st fpr record records =
      match st with
      | .recordStart =>
        if c = '\n' then readRecords comma cs .recordStart fpr record records
        else if c = '"' then readRecords comma cs (.quoted []) fpr record records
        else if c = comma then readRecords comma cs .fieldStart fpr (record ++ [""]) records
        else readRecords comma cs (.unquoted [c]) fpr record records
      | .fieldStart =>
        if c = '"' then readRecords comma cs (.quoted []) fpr record records
        else if c = comma then readRecords comma cs .fieldStart fpr (record ++ [""]) records
        else if c = '\n' then finishRecord comma cs fpr (record ++ [""]) records
        else readRecords comma cs (.unquoted [c]) fpr record records
      | .unquoted buf =>
        if c = '"' then .error .ErrBareQuote
        else if c = comma then
          readRecords comma cs .fieldStart fpr (record ++ [String.mk buf]) records
        else if c = '\n' then finishRecord comma cs fpr (record ++ [String.mk buf]) records
        else readRecords comma cs (.unquoted (buf ++ [c])) fpr record records
      | .quoted buf =>
        if c = '"' then readRecords comma cs (.quoteSeen buf) fpr record records
        else readRecords comma cs (.quoted (buf ++ [c])) fpr record records
      | .quoteSeen buf =>
        if c = '"' then readRecords comma cs (.quoted (buf ++ ['"'])) fpr record records
        else if c = comma then
          readRecords comma cs .fieldStart fpr (record ++ [String.mk buf]) records
        else if c = '\n' then finishRecord comma cs fpr (record ++ [String.mk buf]) records
        else .error .ErrQuote := by
  cases st <;> rw [readRecords] <;> rfl

theorem readRecords_nil_eq (comma : Char) (st : Scan) (fpr : Int)
    (record : List String) (records : Table) :
    readRecords comma [] st fpr record records =
      match st with
      | .recordStart => .ok records
      | .fieldStart => finishRecord comma [] fpr (record ++ [""]) records
      | .unquoted buf => finishRecord comma [] fpr (record ++ [String.mk buf]) records
      | .quoted _ => .error .ErrQuote
      | .quoteSeen buf => finishRecord comma [] fpr (record ++ [String.mk buf]) records := by
  cases st <;> rw [readRecords] <;> simp only [finishRecord] <;>
    cases checkFieldsPerRecord fpr _ <;> simp [readRecords]

theorem readRecords_prefix (comma : Char) (inp : List Char) :
    ∀ (st : Scan) (record : List String) (records out : Table),
      readRecords comma inp st (-1) record records = .ok out → ∃ new, out = records ++ new := by
  induction inp with
  | nil =>
    intro st record records out h
    rw [readRecords_nil_eq] at h
    cases st <;> simp only [finishRecord_negative, readRecords, reduceCtorEq,
      Except.ok.injEq] at h
    · exact ⟨[], by simp [h]⟩
    · exact ⟨_, h.symm⟩
    · exact ⟨_, h.symm⟩
    · exact ⟨_, h.symm⟩
  | cons c cs ih =>
    intro st record records out h
    rw [readRecords_cons_eq] at h
    cases st <;> simp only [finishRecord_negative] at h <;> split_ifs at h <;>
      first
        | exact ih _ _ _ _ h
        | (obtain ⟨new, hnew⟩ := ih _ _ _ _ h
           exact ⟨_, by rw [hnew, List.append_assoc]⟩)

theorem finishRecord_strict (comma : Char) (n : Int) (hn : 0 < n) (rest : List Char)
    (ihrest : ∀ (records new : Table),
      readRecords comma rest .recordStart (-1) [] records = .ok (records ++ new) →
      readRecords comma rest .recordStart n [] records
        = if ∀ r ∈ new, (r.length : Int) = n then .ok (records ++ new)
          else .error .ErrFieldCount)
    (record : List String) (records new : Table)
    (h : finishRecord comma rest (-1) record records = .ok (records ++ new)) :
    finishRecord comma rest n record records
      = if ∀ r ∈ new, (r.length : Int) = n then .ok (records ++ new)
        else .error .ErrFieldCount := by
  rw [finishRecord_negative] at h
  obtain ⟨new2, hnew2⟩ := readRecords_prefix comma rest _ _ _ _ h
  rw [List.append_assoc] at hnew2
  have hnew : new = record :: new2 := by
    simpa using List.append_cancel_left hnew2
  subst hnew
  unfold finishRecord checkFieldsPerRecord
  rw [if_pos hn]
  by_cases hlen : (record.length : Int) = n
  · rw [if_neg (by simpa using hlen)]
    simp only
    have h2 : readRecords comma rest .recordStart (-1) [] (records ++ [record])
        = .ok ((records ++ [record]) ++ new2) := by
      rw [h]; simp
    rw [ihrest _ _ h2]
    simp [hlen]
  · rw [if_pos hlen]
    simp [hlen]

theorem readRecords_strict (comma : Char) (n : Int) (hn : 0 < n) (inp : List Char) :
    ∀ (st : Scan) (record : List String) (records new : Table),
      readRecords comma inp st (-1) record records = .ok (records ++ new) →
      readRecords comma inp st n record records
        = if ∀ r ∈ new, (r.length : Int) = n then .ok (records ++ new)
          else .error .ErrFieldCount := by
  induction inp with
  | nil =>
    have hstart : ∀ (records new : Table),
        readRecords comma [] .recordStart (-1) [] records = .ok (records ++ new) →
        readRecords comma [] .recordStart n [] records
          = if ∀ r ∈ new, (r.length : Int) = n then .ok (records ++ new)
            else .error .ErrFieldCount := by
      intro records new h
      rw [readRecords] at h ⊢
      have hnil : new = [] := by simpa using h
      subst hnil
      simp
    intro st record records new h
    rw [readRecords_nil_eq] at h ⊢
    cases st with
    | recordStart =>
      have hnil : new = [] := by simpa using h
      subst hnil
      simp
    | fieldStart => exact finishRecord_strict comma n hn [] hstart _ _ _ h
    | unquoted buf => exact finishRecord_strict comma n hn [] hstart _ _ _ h
    | quoted buf => simp at h
    | quoteSeen buf => exact finishRecord_strict comma n hn [] hstart _ _ _ h
  | cons c cs ih =>
    intro st record records new h
    rw [readRecords_cons_eq] at h ⊢
    have ih2 := fun st record => ih st record records new
    have fin := fun record => finishRecord_strict comma n hn cs (ih _ _) record records new
    generalize (if ∀ r ∈ new, (r.length : Int) = n then Except.ok (records ++ new)
      else Except.error CsvErr.ErrFieldCount) = result at ih2 fin ⊢
    clear ih
    cases st <;> simp only at h ⊢ <;> split_ifs at h ⊢ <;>
      first
        | exact ih2 _ _ h
        | exact fin _ h

theorem finishRecord_first (comma : Char) (rest : List Char) (record : List String)
    (hlen : 0 < record.length) (new : Table)
    (h : finishRecord comma rest (-1) record [] = .ok new) :
    finishRecord comma rest 0 record []
      = if ∀ r ∈ new, r.length = (new.headD []).length then .ok new
        else .error .ErrFieldCount := by
  rw [finishRecord_negative] at h
  obtain ⟨new2, hnew2⟩ := readRecords_prefix comma rest _ _ _ _ h
  subst hnew2
  unfold finishRecord checkFieldsPerRecord
  rw [if_neg (by decide), if_pos rfl]
  simp only
  rw [readRecords_strict comma (record.length : Int) (by omega) rest _ _ _ _ h]
  simp

theorem readRecords_first (comma : Char) (inp : List Char) :
    ∀ (st : Scan) (record : List String) (new : Table),
      readRecords comma inp st (-1) record [] = .ok new →
      readRecords comma inp st 0 record []
        = if ∀ r ∈ new, r.length = (new.headD []).length then .ok new
          else .error .ErrFieldCount := by
  induction inp with
  | nil =>
    intro st record new h
    rw [readRecords_nil_eq] at h ⊢
    cases st with
    | recordStart =>
      have hnil : new = [] := by simpa using h.symm
      subst hnil
      simp
    | fieldStart => exact finishRecord_first comma [] _ (by simp) _ h
    | unquoted buf => exact finishRecord_first comma [] _ (by simp) _ h
    | quoted buf => simp at h
    | quoteSeen buf => exact finishRecord_first comma [] _ (by simp) _ h
  | cons c cs ih =>
    intro st record new h
    rw [readRecords_cons_eq] at h ⊢
    have ih2 := fun st record => ih st record new
    have fin := fun record hlen => finishRecord_first comma cs record hlen new
    generalize (if ∀ r ∈ new, r.length = (new.headD []).length then Except.ok new
      else Except.error CsvErr.ErrFieldCount) = result at ih2 fin ⊢
    clear ih
    cases st <;> simp only at h ⊢ <;> split_ifs at h ⊢ <;>
      first
        | exact ih2 _ _ h
        | exact fin _ (by simp) h

theorem finishRecord_permissive (comma : Char) (rest : List Char)
    (ihrest : ∀ (fpr : Int) (records out : Table),
      readRecords comma rest .recordStart fpr [] records = .ok out →
      readRecords comma rest .recordStart (-1) [] records = .ok out)
    (fpr : Int) (record : List String) (records out : Table)
    (h : finishRecord comma rest fpr record records = .ok out) :
    finishRecord comma rest (-1) record records = .ok out := by
  rw [finishRecord_negative]
  unfold finishRecord at h
  cases hc : checkFieldsPerRecord fpr record with
  | error e => rw [hc] at h; simp at h
  | ok fpr2 =>
    rw [hc] at h
    exact ihrest fpr2 _ _ h

theorem readRecords_permissive (comma : Char) (inp : List Char) :
    ∀ (st : Scan) (fpr : Int) (record : List String) (records out : Table),
      readRecords comma inp st fpr record records = .ok out →
      readRecords comma inp st (-1) record records = .ok out := by
  induction inp with
  | nil =>
    have hstart : ∀ (fpr : Int) (records out : Table),
        readRecords comma [] .recordStart fpr [] records = .ok out →
        readRecords comma [] .recordStart (-1) [] records = .ok out := by
      intro fpr records out h
      rw [readRecords] at h ⊢
      exact h
    intro st fpr record records out h
    rw [readRecords_nil_eq] at h ⊢
    cases st with
    | recordStart => exact h
    | fieldStart => exact finishRecord_permissive comma [] hstart _ _ _ _ h
    | unquoted buf => exact finishRecord_permissive comma [] hstart _ _ _ _ h
    | quoted buf => simp at h
    | quoteSeen buf => exact finishRecord_permissive comma [] hstart _ _ _ _ h
  | cons c cs ih =>
    intro st fpr record records out h
    rw [readRecords_cons_eq] at h ⊢
    cases st <;> simp only at h ⊢ <;> split_ifs at h ⊢ <;>
      first
        | exact ih _ _ _ _ _ h
        | exact finishRecord_permissive comma cs (fun fpr => ih .recordStart fpr []) _ _ _ _ h

theorem readAll_permissive (body : String) (recs : Table)
    (h : NewReader.ReadAll body = .ok recs) :
    (recordsReader ',').ReadAll body = .ok recs := by
  unfold Reader.ReadAll NewReader at h
  unfold Reader.ReadAll recordsReader
  simp only at h ⊢
  rw [if_pos (by decide)] at h ⊢
  exact readRecords_permissive ',' _ _ _ _ _ _ h

theorem readAll_strict (body : String) (recs : Table)
    (h : (recordsReader ',').ReadAll body = .ok recs) :
    NewReader.ReadAll body
      = if ∀ r ∈ recs, r.length = (recs.headD []).length then .ok recs
        else .error .ErrFieldCount := by
  unfold Reader.ReadAll recordsReader at h
  unfold Reader.ReadAll NewReader
  simp only at h ⊢
  rw [if_pos (by decide)] at h ⊢
  exact readRecords_first ',' _ _ _ _ h

/-! ### The two CSV decodes -/

/-- C5: when the login and the export request succeed, `N26.Statements` decodes the body
with strict field counts: if the records of the body (read as comma-delimited CSV without
the check) contain one whose field count differs from that of the first record, the call
returns the error `ErrFieldCount` and no rows; the same for every well-formed
comma-delimited file with such a record; whatever the body, rows that are returned all
have the field count of the first; and the body `X,Y\n1,2\n` gives
`[["X","Y"],["1","2"]]`. -/
theorem C5_strict_field_count (env : Env) (n n1 : N26) (log log1 : List Request)
    (tFrom tTo : Time) (resp : Response)
    (hlogin : n.login env log = (n1, log1, none))
    (hresp : env.roundTrip log1 (statementsRequest n1.token tFrom tTo) = .ok resp) :
    (∀ recs : Table, (recordsReader ',').ReadAll resp.body = .ok recs →
      (∃ r ∈ recs, r.length ≠ (recs.headD []).length) →
      (n.Statements env tFrom tTo log).2.2 = .error (.csv .ErrFieldCount)) ∧
    (∀ ls : List Line, FileWellFormed ',' ls → resp.body = String.mk (renderFile ',' ls) →
      (∃ r ∈ fileTable ls, r.length ≠ ((fileTable ls).headD []).length) →
      (n.Statements env tFrom tTo log).2.2 = .error (.csv .ErrFieldCount)) ∧
    (∀ rows : Table, (n.Statements env tFrom tTo log).2.2 = .ok rows →
      ∀ r ∈ rows, r.length = (rows.headD []).length) ∧
    (resp.body = "X,Y\n1,2\n" →
      (n.Statements env tFrom tTo log).2.2 = .ok [["X", "Y"], ["1", "2"]]) := by
  have hres : (n.Statements env tFrom tTo log).2.2 = csvResult (NewReader.ReadAll resp.body) := by
    unfold N26.Statements
    rw [hlogin]
    simp only [hresp]
  have hragged : ∀ recs : Table, (recordsReader ',').ReadAll resp.body = .ok recs →
      (∃ r ∈ recs, r.length ≠ (recs.headD []).length) →
      (n.Statements env tFrom tTo log).2.2 = .error (.csv .ErrFieldCount) := by
    intro recs hrecs hex
    rw [hres, readAll_strict resp.body recs hrecs, if_neg (by simpa using hex)]
    rfl
  refine ⟨hragged, ?_, ?_, ?_⟩
  · intro ls hwf hbody hex
    apply hragged (fileTable ls) _ hex
    rw [hbody]
    exact readAll_wellFormed ',' (by decide) ls hwf
  · intro rows hrows
    rw [hres] at hrows
    cases hread : NewReader.ReadAll resp.body with
    | error e => rw [hread] at hrows; simp [csvResult] at hrows
    | ok recs =>
      rw [hread] at hrows
      have hrr : recs = rows := by simpa [csvResult] using hrows
      subst hrr
      have hstrict := readAll_strict resp.body recs (readAll_permissive resp.body recs hread)
      rw [hread] at hstrict
      by_contra hne
      rw [if_neg hne] at hstrict
      simp at hstrict
  · intro hbody
    rw [hres, hbody]
    decide

/-- C5 at a mock whose export body is `X,Y\n1,2,3\n`: the call fails with `ErrFieldCount`. -/
theorem C5_strict_field_count_witness :
    (recordsReader ',').ReadAll "X,Y\n1,2,3\n" = .ok [["X", "Y"], ["1", "2", "3"]] ∧
    (n26Client.Statements n26Ragged newYear2016 newYearsEve2016 []).2.2
      = .error (.csv .ErrFieldCount) :=
  ⟨by decide,
    (C5_strict_field_count n26Ragged n26Client
      { n26Client with token := "tok123" } [] [tokenRequest n26Client]
      newYear2016 newYearsEve2016 { statusCode := 200, body := "X,Y\n1,2,3\n" }
      (by decide) (by decide)).1 [["X", "Y"], ["1", "2", "3"]] (by decide)
      ⟨["1", "2", "3"], by decide, by decide⟩⟩

theorem statements_export (env : Env) (d : DeutscheBank) (tFrom tTo : Time)
    (log log1 : List Request) (page1 page2 resp : Response) (doc1 doc2 : Document)
    (path1 path2 : String)
    (h1 : d.login env pageDisplayTransactions log = (log1, .ok page1))
    (h2 : env.parseDocument page1 = .ok doc1)
    (h3 : eachAttr (findRefreshForm doc1) "action" "" false = (path1, true))
    (h4 : env.urlError (baseURL ++ path1) = none)
    (h5 : env.roundTrip log1 (dateRangeRequest path1 tFrom tTo) = .ok page2)
    (h6 : env.parseDocument page2 = .ok doc2)
    (h7 : eachAttr (findCsvLink doc2) "href" path1 true = (path2, true))
    (h8 : env.urlError (baseURL ++ path2) = none)
    (h9 : env.roundTrip (log1 ++ [dateRangeRequest path1 tFrom tTo]) (exportRequest path2)
      = .ok resp) :
    d.Statements env tFrom tTo log
      = (log1 ++ [dateRangeRequest path1 tFrom tTo] ++ [exportRequest path2],
         csvResult (dbReader.ReadAll resp.body)) := by
  unfold DeutscheBank.Statements
  rw [h1]
  simp only [h2, h3, h4, h5, h6, h7, h8, h9]
  rfl

/-- C6: in every run of `DeutscheBank.Statements` that downloads the export (login, form
lookup, date-range `POST`, link lookup and export `GET` succeed), a body that is a
well-formed semicolon-delimited file, whatever the field counts of its records, is decoded
without error into one row per record, in order, each row being the contents of the
fields of its record; the body `A;B\nC;D;E\n` gives `[["A","B"],["C","D","E"]]`. -/
theorem C6_ragged_rows_decode (env : Env) (d : DeutscheBank) (tFrom tTo : Time)
    (log log1 : List Request) (page1 page2 resp : Response) (doc1 doc2 : Document)
    (path1 path2 : String)
    (h1 : d.login env pageDisplayTransactions log = (log1, .ok page1))
    (h2 : env.parseDocument page1 = .ok doc1)
    (h3 : eachAttr (findRefreshForm doc1) "action" "" false = (path1, true))
    (h4 : env.urlError (baseURL ++ path1) = none)
    (h5 : env.roundTrip log1 (dateRangeRequest path1 tFrom tTo) = .ok page2)
    (h6 : env.parseDocument page2 = .ok doc2)
    (h7 : eachAttr (findCsvLink doc2) "href" path1 true = (path2, true))
    (h8 : env.urlError (baseURL ++ path2) = none)
    (h9 : env.roundTrip (log1 ++ [dateRangeRequest path1 tFrom tTo]) (exportRequest path2)
      = .ok resp) :
    (∀ ls : List Line, FileWellFormed ';' ls → resp.body = String.mk (renderFile ';' ls) →
      (d.Statements env tFrom tTo log).2 = .ok (fileTable ls) ∧
      (fileTable ls).length = ls.length ∧
      ∀ l ∈ ls, l.fields.map (fun f => f.content) ∈ fileTable ls) ∧
    (resp.body = "A;B\nC;D;E\n" →
      (d.Statements env tFrom tTo log).2 = .ok [["A", "B"], ["C", "D", "E"]]) := by
  have hres := statements_export env d tFrom tTo log log1 page1 page2 resp doc1 doc2 path1
    path2 h1 h2 h3 h4 h5 h6 h7 h8 h9
  constructor
  · intro ls hwf hbody
    refine ⟨?_, by simp [fileTable], fun l hl => List.mem_map_of_mem _ hl⟩
    rw [hres, hbody]
    show csvResult ((recordsReader ';').ReadAll _) = _
    rw [readAll_wellFormed ';' (by decide) ls hwf]
    rfl
  · intro hbody
    rw [hres, hbody]
    show csvResult (dbReader.ReadAll "A;B\nC;D;E\n") = _
    decide

/-- C6 at the mock of the specification's scenario (form action `/x`, link `/y.csv`, body
`A;B\nC;D;E\n`), through the general statement for the file `raggedFile`. -/
theorem C6_ragged_rows_decode_witness :
    FileWellFormed ';' raggedFile ∧
    String.mk (renderFile ';' raggedFile) = "A;B\nC;D;E\n" ∧
    (dbClient.Statements (dbServer formPage linkPage) newYear2016 newYearsEve2016 []).2
      = .ok [["A", "B"], ["C", "D", "E"]] :=
  ⟨by
      refine ⟨⟨by decide, ?_, by decide⟩, by decide, ⟨by decide, ?_, by decide⟩, by decide,
        trivial⟩ <;>
      · intro f hf
        simp only [List.mem_cons, List.mem_singleton, List.not_mem_nil, or_false] at hf
        rcases hf with rfl | rfl | rfl <;> exact ⟨by decide, fun _ => by decide⟩,
    by decide,
    ((C6_ragged_rows_decode (dbServer formPage linkPage) dbClient newYear2016 newYearsEve2016
      [] [loginPageRequest, loginRequest dbClient pageDisplayTransactions]
      { statusCode := 200, body := formPage } { statusCode := 200, body := linkPage }
      { statusCode := 200, body := "A;B\nC;D;E\n" }
      [.element "html" [] [.element "head" [] [],
        .element "body" [] [.element "form"
          [("id", "accountTurnoversForm"), ("action", "/x")] []]]]
      [.element "html" [] [.element "head" [] [],
        .element "body" [] [.element "div" [("class", "csv")]
          [.element "a" [("href", "/y.csv")] [.text "CSV"]]]]]
      "/x" "/y.csv" (by decide) rfl (by decide) rfl (by decide) rfl (by decide) rfl
      (by decide)).1 raggedFile
        (by
          refine ⟨⟨by decide, ?_, by decide⟩, by decide, ⟨by decide, ?_, by decide⟩, by decide,
            trivial⟩ <;>
          · intro f hf
            simp only [List.mem_cons, List.mem_singleton, List.not_mem_nil, or_false] at hf
            rcases hf with rfl | rfl | rfl <;> exact ⟨by decide, fun _ => by decide⟩)
        (by decide)).1⟩

/-- C10 on a registry of three banks in which the second fails: the first bank's rows
are uploaded once, nothing is uploaded for the failing bank, and the third is not called. -/
theorem C10_fail_fast_witness :
    ((([("n26", constBank (.ok [["X", "Y"], ["1", "2"]]))] : List (String × Bank))
        ++ ("db", constBank (.error (.text "failed to find refresh form on page")))
          :: [("other", constBank (.ok []))]).map Prod.fst).Nodup ∧
    (uploadAll acceptingSink "sheet" newYear2016 newYearsEve2016
      ([("n26", constBank (.ok [["X", "Y"], ["1", "2"]]))]
        ++ ("db", constBank (.error (.text "failed to find refresh form on page")))
          :: [("other", constBank (.ok []))]) []).1
      = [Event.statements "n26" newYear2016 newYearsEve2016,
         Event.update "sheet" "n26!A1" "USER_ENTERED"
           { MajorDimension := "ROWS", Range := "n26!A1",
             Values := [[.string "X", .string "Y"], [.string "1", .string "2"]] },
         Event.statements "db" newYear2016 newYearsEve2016] ∧
    (uploadAll acceptingSink "sheet" newYear2016 newYearsEve2016
      ([("n26", constBank (.ok [["X", "Y"], ["1", "2"]]))]
        ++ ("db", constBank (.error (.text "failed to find refresh form on page")))
          :: [("other", constBank (.ok []))]) []).2
      = Outcome.fatalStatements "db" (.text "failed to find refresh form on page") :=
  ⟨by decide, by decide,
    (C10_fail_fast acceptingSink "sheet" newYear2016 newYearsEve2016
      [("n26", constBank (.ok [["X", "Y"], ["1", "2"]]))] [("other", constBank (.ok []))]
      "db" (constBank (.error (.text "failed to find refresh form on page")))
      (.text "failed to find refresh form on page") (by decide) (by decide) rfl).1⟩
end Autobank
